import Mathlib

/-!
# Verification of the `cropped` stamp pipeline

A shallow embedding of `src/overlay.rs`, `src/fonts.rs` and the relevant parts
of the `lopdf` document model used by them, together with theorems settling the
spec claims about the stamp strategy (`stamp_page`) and the driver (`combine`).

Real-number arithmetic in the source is IEEE `f64`; all quantities that the
claims inspect (page sizes, centering translations, crop-mark offsets) are
dyadic or small decimal constants on which the source performs only addition,
subtraction and halving, so the model uses exact rational arithmetic `ℚ`.
-/

namespace Cropped

/-- An indirect object identifier: (object number, generation number),
mirroring `lopdf::ObjectId = (u32, u16)`. -/
abbrev ObjectId := Nat × Nat

mutual

/-- The `lopdf::Object` value union.  String values in this program are always
ASCII literals, so they are carried as `String`; stream byte payloads are
carried as `StreamData`. -/
inductive Object where
  | null : Object
  | boolean : Bool → Object
  | integer : Int → Object
  | real : ℚ → Object
  | string : String → Object
  | name : String → Object
  | array : List Object → Object
  | dictionary : List (String × Object) → Object
  | reference : Nat × Nat → Object
  | stream : List (String × Object) → StreamData → Object

/-- Payload of a stream object.  `raw` is an opaque byte payload loaded from
the input document (never decoded by this program).  `encoded` is the payload
of a stream synthesized by this program via `Content::encode`, represented by
its ordered operation list (`Content::encode` is injective on operation lists,
and the program never compares raw bytes with synthesized bytes). -/
inductive StreamData where
  | raw : List Nat → StreamData
  | encoded : List (String × List Object) → StreamData

end

/-- A content-stream operation: operator paired with its ordered operands,
mirroring `lopdf::content::Operation`. -/
abbrev Operation := String × List Object

/-- A dictionary is an ordered association list of key/value entries,
mirroring `lopdf::Dictionary` (an insertion-ordered map). -/
abbrev Dict := List (String × Object)

/-- First value bound to `k`, mirroring `Dictionary::get`'s map lookup. -/
def dictGet : Dict → String → Option Object
  | [], _ => none
  | (k', v) :: rest, k => if k' = k then some v else dictGet rest k

/-- `Dictionary::has`: key membership. -/
def dictMem (d : Dict) (k : String) : Bool :=
  (dictGet d k).isSome

/-- `Dictionary::set`: replace the value at an existing key in place (keeping
its position, as a linked hash map does) or append a fresh entry. -/
def dictSet : Dict → String → Object → Dict
  | [], k, v => [(k, v)]
  | (k', v') :: rest, k, v =>
    if k' = k then (k, v) :: rest else (k', v') :: dictSet rest k v

/-- `Dictionary::extend`: add `other`'s entries to `d`, skipping entries whose
key was already present in `d` at call time.  In `stamp_page` this is only
ever invoked with `d` empty. -/
def dictExtend (d other : Dict) : Dict :=
  other.foldl (fun acc kv => if dictMem d kv.1 then acc else dictSet acc kv.1 kv.2) d

/-- Keys of a dictionary are pairwise distinct (the invariant of every
dictionary a `lopdf` document actually stores, since it is a map). -/
def dictKeysNodup : Dict → Bool
  | [] => true
  | (k, _) :: rest => !dictMem rest k && dictKeysNodup rest

/-- The `lopdf::Error` cases reachable from the embedded code. -/
inductive PdfError where
  | objectNotFound : PdfError
  | typeError : PdfError
  | dictKey : PdfError
  | pageNumberNotFound : Nat → PdfError
deriving DecidableEq

/-- `Dictionary::get` as the fallible accessor used with `?` in Rust. -/
def dictGetE (d : Dict) (k : String) : Except PdfError Object :=
  match dictGet d k with
  | some v => .ok v
  | none => .error .dictKey

/-- `Object::as_dict`. -/
def asDict : Object → Except PdfError Dict
  | .dictionary d => .ok d
  | _ => .error .typeError

/-- The `to_f64` closure of `stamp_page`: accept Integer or Real, otherwise
fail with `Error::PageNumberNotFound(0)`. -/
def objToRat : Object → Except PdfError ℚ
  | .integer i => .ok (i : ℚ)
  | .real r => .ok r
  | _ => .error (.pageNumberNotFound 0)

/-- Association-list lookup over the object store (first match). -/
def getObj : List (ObjectId × Object) → ObjectId → Option Object
  | [], _ => none
  | e :: rest, id => if e.1 = id then some e.2 else getObj rest id

/-- Association-list update: replace the first entry at `id` in place, or
append a fresh entry (mirrors `BTreeMap::insert` observationally). -/
def setObj : List (ObjectId × Object) → ObjectId → Object → List (ObjectId × Object)
  | [], id, v => [(id, v)]
  | e :: rest, id, v => if e.1 = id then (id, v) :: rest else e :: setObj rest id v

/-- The `lopdf::Document` model: the indirect-object store, the allocation
high-water mark `max_id`, and the trailer's Root (catalog) id. -/
structure Document where
  objects : List (ObjectId × Object)
  maxId : Nat
  trailerRoot : ObjectId

/-- Store lookup. -/
def Document.lookup (doc : Document) (id : ObjectId) : Option Object :=
  getObj doc.objects id

/-- `Document::get_object`. -/
def Document.getObject (doc : Document) (id : ObjectId) : Except PdfError Object :=
  match doc.lookup id with
  | some o => .ok o
  | none => .error .objectNotFound

/-- `Document::add_object`: allocate `max_id + 1` and store the value there. -/
def Document.addObject (doc : Document) (obj : Object) : Document × ObjectId :=
  let newId : ObjectId := (doc.maxId + 1, 0)
  ({ doc with objects := setObj doc.objects newId obj, maxId := doc.maxId + 1 }, newId)

/-- `doc.objects.insert(id, obj)`: store at a caller-chosen id, leaving
`max_id` alone (as the Rust code does when writing the page back). -/
def Document.insertObject (doc : Document) (id : ObjectId) (obj : Object) : Document :=
  { doc with objects := setObj doc.objects id obj }

/-- Well-formedness maintained by `lopdf`: every allocated id is at most
`max_id`, so `add_object` never collides with an existing object. -/
def Document.wf (doc : Document) : Bool :=
  doc.objects.all fun e => e.1.1 ≤ doc.maxId

/-- `generate_crop_marks` (overlay.rs:88-201): line width, gray stroke color,
then for each of the four corners of the content area a horizontal and a
vertical mark, each a move-to/line-to/stroke triple, offset 5pt beyond the
edge and 20pt long. -/
def generateCropMarks (contentX contentY contentWidth contentHeight : ℚ) :
    List Operation :=
  let markLength : ℚ := 20
  let markOffset : ℚ := 5
  let left := contentX
  let right := contentX + contentWidth
  let bottom := contentY
  let top := contentY + contentHeight
  [("w", [.real (1/2)]),
   ("G", [.integer 0]),
   ("m", [.real (left - markOffset - markLength), .real bottom]),
   ("l", [.real (left - markOffset), .real bottom]),
   ("S", []),
   ("m", [.real left, .real (bottom - markOffset - markLength)]),
   ("l", [.real left, .real (bottom - markOffset)]),
   ("S", []),
   ("m", [.real (right + markOffset), .real bottom]),
   ("l", [.real (right + markOffset + markLength), .real bottom]),
   ("S", []),
   ("m", [.real right, .real (bottom - markOffset - markLength)]),
   ("l", [.real right, .real (bottom - markOffset)]),
   ("S", []),
   ("m", [.real (left - markOffset - markLength), .real top]),
   ("l", [.real (left - markOffset), .real top]),
   ("S", []),
   ("m", [.real left, .real (top + markOffset)]),
   ("l", [.real left, .real (top + markOffset + markLength)]),
   ("S", []),
   ("m", [.real (right + markOffset), .real top]),
   ("l", [.real (right + markOffset + markLength), .real top]),
   ("S", []),
   ("m", [.real right, .real (top + markOffset)]),
   ("l", [.real right, .real (top + markOffset + markLength)]),
   ("S", [])]

/-- `generate_datetime` (overlay.rs:209-238): text object showing the
timestamp at (28.35, 28.35), i.e. 1cm from the bottom-left edges.
28.35 = 567/20 exactly. -/
def generateDatetime (timestamp : String) (fontName : String) : List Operation :=
  let yPos : ℚ := 567/20
  let xPos : ℚ := 567/20
  [("BT", []),
   ("Tf", [.name fontName, .integer 10]),
   ("Td", [.real xPos, .real yPos]),
   ("Tj", [.string timestamp]),
   ("ET", [])]

/-- `generate_page_number` (overlay.rs:248-288): the decimal page number,
right-aligned 1cm from the bottom-right, using the font's character width at
the 10pt font size. -/
def generatePageNumber (pageNum : Nat) (pageWidth : ℚ) (fontName : String)
    (charWidth : ℚ) : List Operation :=
  let yPos : ℚ := 567/20
  let text := Nat.repr pageNum
  let fontSize : ℚ := 10
  let textWidth : ℚ := (text.length : ℚ) * charWidth * fontSize
  let xPos := pageWidth - 567/20 - textWidth
  [("BT", []),
   ("Tf", [.name fontName, .integer 10]),
   ("Td", [.real xPos, .real yPos]),
   ("Tj", [.string text]),
   ("ET", [])]

/-- The operation list of the overlay Form XObject built by
`create_overlay_xobject` (overlay.rs:308-321): crop marks, then the
timestamp footer, then the page-number footer. -/
def overlayOps (pageNum : Nat) (trimX trimY trimW trimH : ℚ) (charWidth : ℚ)
    (timestamp : String) : List Operation :=
  generateCropMarks trimX trimY trimW trimH
    ++ generateDatetime timestamp "F1"
    ++ generatePageNumber pageNum 595 "F1" charWidth

/-- `create_overlay_xobject` (overlay.rs:297-345): build the overlay content,
add its private font resources dictionary, then add the Form XObject stream
(Type/Subtype/BBox covering the whole A4 page, self-contained Resources).
`Content::encode` errors are not reachable for the operation lists this
program builds, so the model is total. -/
def createOverlayXObject (doc : Document) (pageNum : Nat)
    (trimX trimY trimW trimH : ℚ) (fontId : ObjectId) (charWidth : ℚ)
    (timestamp : String) : Document × ObjectId :=
  let ops := overlayOps pageNum trimX trimY trimW trimH charWidth timestamp
  let fontDict : Dict := dictSet [] "F1" (.reference fontId)
  let (doc, fontDictId) := doc.addObject (.dictionary fontDict)
  let resources : Dict := [("Font", .reference fontDictId)]
  doc.addObject (.stream
    [("Type", .name "XObject"),
     ("Subtype", .name "Form"),
     ("BBox", .array [.integer 0, .integer 0, .integer 595, .integer 842]),
     ("Resources", .dictionary resources)]
    (.encoded ops))

/-- The start wrapper stream's operations (overlay.rs:482-496): invoke the
overlay XObject, save graphics state, translate by the centering offset. -/
def stampStartOps (contentX contentY : ℚ) : List Operation :=
  [("Do", [.name "Overlay"]),
   ("q", []),
   ("cm", [.integer 1, .integer 0, .integer 0, .integer 1,
           .real contentX, .real contentY])]

/-- The end wrapper stream's operations (overlay.rs:505): restore state. -/
def stampEndOps : List Operation := [("Q", [])]

/-- The middle of the rebuilt Contents array (overlay.rs:518-532): a single
Reference is kept as-is, an Array's elements are copied in order, any other
shape (including an absent key) contributes nothing. -/
def originalContentsElems (page : Dict) : List Object :=
  match dictGet page "Contents" with
  | some (.reference r) => [.reference r]
  | some (.array arr) => arr
  | _ => []

/-- The infallible tail of `stamp_page` (overlay.rs:410-540), entered once
the page dictionary and its MediaBox have been read successfully:
rewrite MediaBox to A4, create the overlay XObject, rebuild Resources
(existing entries extended into fresh dictionaries, the overlay bound under
the name "Overlay"), synthesize the start/end wrapper streams, rebuild
Contents as [start, original..., end], and write the page back at its id. -/
def stampPageCore (doc : Document) (pageId : ObjectId) (page : Dict)
    (actualWidth actualHeight trimWidth trimHeight : ℚ) (fontId : ObjectId)
    (charWidth : ℚ) (timestamp : String) (pageNum : Nat) : Document :=
  let newPage := dictSet page "MediaBox"
    (.array [.integer 0, .integer 0, .integer 595, .integer 842])
  let trimX : ℚ := (595 - trimWidth) / 2
  let trimY : ℚ := (842 - trimHeight) / 2
  let (doc, overlayXObjectId) :=
    createOverlayXObject doc pageNum trimX trimY trimWidth trimHeight fontId
      charWidth timestamp
  let resDict : Option Dict :=
    match dictGet newPage "Resources" with
    | some (.dictionary d) => some d
    | some (.reference rid) =>
      match doc.lookup rid with
      | some obj => (asDict obj).toOption
      | none => none
    | _ => none
  let xobjectDict : Dict :=
    match resDict with
    | some rd =>
      match dictGet rd "XObject" with
      | some (.dictionary d) => dictExtend [] d
      | some (.reference rid) =>
        match doc.lookup rid with
        | some obj =>
          match (asDict obj).toOption with
          | some d => dictExtend [] d
          | none => []
        | none => []
      | _ => []
    | none => []
  let xobjectDict := dictSet xobjectDict "Overlay" (.reference overlayXObjectId)
  let (doc, xobjectDictId) := doc.addObject (.dictionary xobjectDict)
  let newResources : Dict :=
    match resDict with
    | some rd => dictExtend [] rd
    | none => []
  let newResources := dictSet newResources "XObject" (.reference xobjectDictId)
  let newPage := dictSet newPage "Resources" (.dictionary newResources)
  let contentX : ℚ := (595 - actualWidth) / 2
  let contentY : ℚ := (842 - actualHeight) / 2
  let (doc, startId) := doc.addObject (.stream [] (.encoded (stampStartOps contentX contentY)))
  let (doc, endId) := doc.addObject (.stream [] (.encoded stampEndOps))
  let contentsArray :=
    [Object.reference startId] ++ originalContentsElems newPage ++ [Object.reference endId]
  let newPage := dictSet newPage "Contents" (.array contentsArray)
  doc.insertObject pageId (.dictionary newPage)

/-- `stamp_page` (overlay.rs:375-541).  The fallible head: fetch the page
object, require a dictionary, require a MediaBox that is a 4-element array of
numbers; then run the infallible tail. -/
def stampPage (doc : Document) (pageId : ObjectId) (trimWidth trimHeight : ℚ)
    (fontId : ObjectId) (charWidth : ℚ) (timestamp : String) (pageNum : Nat) :
    Except PdfError Document := do
  let pageObj ← doc.getObject pageId
  let page ← asDict pageObj
  let mediabox ← dictGetE page "MediaBox"
  match mediabox with
  | .array [m0, m1, m2, m3] => do
    let x1 ← objToRat m0
    let y1 ← objToRat m1
    let x2 ← objToRat m2
    let y2 ← objToRat m3
    .ok (stampPageCore doc pageId page (x2 - x1) (y2 - y1) trimWidth trimHeight
      fontId charWidth timestamp pageNum)
  | _ => .error (.pageNumberNotFound 0)

/-- The parsed font metrics of `fonts.rs` (the `ttf_parser::Face` data):
reading and parsing the font file is the Metrics Provider collaborator, so
its output is a parameter of the model. -/
structure FontFace where
  bboxXMin : Int
  bboxYMin : Int
  bboxXMax : Int
  bboxYMax : Int
  ascender : Int
  descender : Int
  capHeight : Option Int
  unitsPerEm : Nat
  advanceWidthZero : Option Nat

/-- `embed_font` (fonts.rs:15-91): add the font file stream, the font
descriptor, and the TrueType font dictionary; return the font id and the
advance width of '0' normalized by units-per-em. -/
def embedFont (fontData : List Nat) (face : FontFace) (doc : Document) :
    Document × ObjectId × ℚ :=
  let capHeight := face.capHeight.getD 700
  let advanceWidthUnits := face.advanceWidthZero.getD 600
  let charWidth : ℚ := (advanceWidthUnits : ℚ) / (face.unitsPerEm : ℚ)
  let widths : List Object := List.replicate (126 - 32 + 1) (.integer advanceWidthUnits)
  let (doc, fontStreamId) := doc.addObject
    (.stream [("Length1", .integer fontData.length)] (.raw fontData))
  let (doc, fontDescriptorId) := doc.addObject (.dictionary
    [("Type", .name "FontDescriptor"),
     ("FontName", .name "Inconsolata-Regular"),
     ("Flags", .integer 32),
     ("FontBBox", .array [.integer face.bboxXMin, .integer face.bboxYMin,
                          .integer face.bboxXMax, .integer face.bboxYMax]),
     ("ItalicAngle", .integer 0),
     ("Ascent", .integer face.ascender),
     ("Descent", .integer face.descender),
     ("CapHeight", .integer capHeight),
     ("StemV", .integer 80),
     ("FontFile2", .reference fontStreamId)])
  let (doc, fontId) := doc.addObject (.dictionary
    [("Type", .name "Font"),
     ("Subtype", .name "TrueType"),
     ("BaseFont", .name "Inconsolata-Regular"),
     ("FontDescriptor", .reference fontDescriptorId),
     ("Encoding", .name "WinAnsiEncoding"),
     ("FirstChar", .integer 32),
     ("LastChar", .integer 126),
     ("Widths", .array widths)])
  (doc, fontId, charWidth)

/-- Does `r` resolve to a dictionary whose Type is Page? -/
def isPageNode (doc : Document) (r : ObjectId) : Bool :=
  match doc.lookup r with
  | some (.dictionary d) =>
    match dictGet d "Type" with
    | some (.name t) => t == "Page"
    | _ => false
  | _ => false

/-- The Pages reference held by the trailer Root's catalog, if any. -/
def catalogPagesRef (doc : Document) : Option ObjectId :=
  match doc.lookup doc.trailerRoot with
  | some (.dictionary cat) =>
    match dictGet cat "Pages" with
    | some (.reference pagesId) => some pagesId
    | _ => none
  | _ => none

/-- The Kids array of the page-tree parent node at `pagesId`. -/
def pagesKids (doc : Document) (pagesId : ObjectId) : List Object :=
  match doc.lookup pagesId with
  | some (.dictionary pages) =>
    match dictGet pages "Kids" with
    | some (.array kids) => kids
    | _ => []
  | _ => []

/-- Modelled from the spec: the document I/O collaborator's
`page_ids(doc) -> ordered Sequence<ObjectId>` (spec section 6), over the page
tree of section 4.5 — a Pages parent node whose ordered Kids array lists the
page references; a kid is a page when it resolves to a dictionary whose Type
is Page. -/
def Document.pageIter (doc : Document) : List ObjectId :=
  match catalogPagesRef doc with
  | some pagesId =>
    ((pagesKids doc pagesId).filterMap fun o =>
      match o with
      | .reference r => some r
      | _ => none).filter (isPageNode doc)
  | none => []

/-- Bounds on the ids mentioned by the page tree: the trailer Root, the
Pages reference and every kid reference stay at or below `max_id` (true of
every document `lopdf` loads). -/
def Document.pageTreeBounded (doc : Document) : Bool :=
  decide (doc.trailerRoot.1 ≤ doc.maxId) &&
  (match catalogPagesRef doc with
   | some pagesId =>
     decide (pagesId.1 ≤ doc.maxId) &&
     (pagesKids doc pagesId).all fun o =>
       match o with
       | .reference r => decide (r.1 ≤ doc.maxId)
       | _ => true
   | none => true)

/-- Modelled from the spec: the document I/O collaborator's stream-compression
pass `compress(doc)` (spec sections 1 and 6).  It re-encodes raw stream byte
payloads (`flate` is the byte-level encoder, a parameter since the binary
stream syntax is outside the core); synthesized streams are represented by
their decoded operations, which compression does not change; nothing but
stream payloads is touched. -/
def Document.compress (flate : List Nat → List Nat) (doc : Document) : Document :=
  { doc with objects := doc.objects.map fun e =>
      match e.2 with
      | .stream d (.raw b) => (e.1, .stream d (.raw (flate b)))
      | _ => e }

/-- The page loop of `combine` (overlay.rs:59-70): stamp each (0-based index,
page id) pair in order, passing `index + 1` as the page number, aborting on
the first error. -/
def stampPages (trimWidth trimHeight : ℚ) (fontId : ObjectId) (charWidth : ℚ)
    (timestamp : String) :
    Document → List (Nat × ObjectId) → Except PdfError Document
  | doc, [] => .ok doc
  | doc, (index, pageId) :: rest => do
    let doc ← stampPage doc pageId trimWidth trimHeight fontId charWidth
      timestamp (index + 1)
    stampPages trimWidth trimHeight fontId charWidth timestamp doc rest

/-- `combine` (overlay.rs:27-78).  Loading the manuscript, reading the clock
and resolving the timezone are I/O collaborators, so the loaded document and
the formatted timestamp are parameters.  The returned document is the one
handed to `Document::save`; an error means the save step is never reached and
no output file is written. -/
def combine (flate : List Nat → List Nat) (fontData : List Nat)
    (face : FontFace) (timestamp : String) (manuscript : Document)
    (trimWidth trimHeight : ℚ) : Except PdfError Document := do
  let (doc, fontId, charWidth) := embedFont fontData face manuscript
  let pageIds := doc.pageIter
  let doc ← stampPages trimWidth trimHeight fontId charWidth timestamp doc
    pageIds.enum
  .ok (doc.compress flate)

/-- Observer: does a fallible computation succeed? -/
def isOkE : Except PdfError Document → Bool
  | .ok _ => true
  | .error _ => false

/-- Observer: the object bound to `name` in the XObject sub-table of a page's
Resources, following the shape `stamp_page` writes (inline Resources whose
XObject entry is a reference to an XObject dictionary). -/
def xobjectBinding (doc : Document) (pageId : ObjectId) (name : String) :
    Option Object :=
  match doc.lookup pageId with
  | some (.dictionary d) =>
    match dictGet d "Resources" with
    | some (.dictionary rd) =>
      match dictGet rd "XObject" with
      | some (.reference xid) =>
        match doc.lookup xid with
        | some (.dictionary xd) => dictGet xd name
        | _ => none
      | _ => none
    | _ => none
  | _ => none

/-- Observer: the id the "Overlay" name is bound to on a stamped page. -/
def resolvedOverlay (doc : Document) (pageId : ObjectId) : Option ObjectId :=
  match xobjectBinding doc pageId "Overlay" with
  | some (.reference oid) => some oid
  | _ => none

/-- The four corners of the trim rectangle centered on the 595×842 canvas. -/
def trimCorners (trimWidth trimHeight : ℚ) : List (ℚ × ℚ) :=
  let tx := (595 - trimWidth) / 2
  let ty := (842 - trimHeight) / 2
  [(tx, ty), (tx + trimWidth, ty), (tx, ty + trimHeight),
   (tx + trimWidth, ty + trimHeight)]

/-- The straight segments drawn by an operation list: each
move-to/line-to/stroke triple contributes one segment. -/
def markSegments : List Operation → List ((ℚ × ℚ) × (ℚ × ℚ))
  | ("m", [.real x1, .real y1]) :: ("l", [.real x2, .real y2]) :: ("S", []) :: rest =>
    ((x1, y1), (x2, y2)) :: markSegments rest
  | _ :: rest => markSegments rest
  | [] => []

/-- A point is within `r` points of `c` (componentwise). -/
def nearPoint (p c : ℚ × ℚ) (r : ℚ) : Prop :=
  |p.1 - c.1| ≤ r ∧ |p.2 - c.2| ≤ r

/-- A concrete one-page manuscript: catalog at (1,0), Pages node at (2,0),
one 432×648 page at (3,0) with a single content stream at (4,0). -/
def samplePage : Dict :=
  [("Type", .name "Page"),
   ("Parent", .reference (2, 0)),
   ("MediaBox", .array [.integer 0, .integer 0, .integer 432, .integer 648]),
   ("Contents", .reference (4, 0)),
   ("Resources", .dictionary
     [("Font", .dictionary [("F9", .reference (4, 0))]),
      ("XObject", .dictionary [("Im1", .reference (4, 0))])])]

/-- The document holding `samplePage`. -/
def sampleDoc : Document :=
  { objects :=
      [((1, 0), .dictionary [("Type", .name "Catalog"), ("Pages", .reference (2, 0))]),
       ((2, 0), .dictionary [("Type", .name "Pages"),
                             ("Kids", .array [.reference (3, 0)]),
                             ("Count", .integer 1)]),
       ((3, 0), .dictionary samplePage),
       ((4, 0), .stream [("Length", .integer 2)] (.raw [104, 105]))],
    maxId := 4,
    trailerRoot := (1, 0) }

/-- Concrete font metrics: advance width 500 at 1000 units per em, so the
character width at 1pt is 1/2. -/
def sampleFace : FontFace :=
  { bboxXMin := -100, bboxYMin := -200, bboxXMax := 900, bboxYMax := 800,
    ascender := 750, descender := -250, capHeight := some 700,
    unitsPerEm := 1000, advanceWidthZero := some 500 }

/-- A page dictionary with a MediaBox but no Contents key. -/
def noContentsPage : Dict :=
  [("Type", .name "Page"),
   ("MediaBox", .array [.integer 0, .integer 0, .integer 432, .integer 648])]

/-- A document whose only page lacks the Contents key. -/
def noContentsDoc : Document :=
  { objects := [((1, 0), .dictionary noContentsPage)],
    maxId := 1,
    trailerRoot := (1, 0) }

/-- A page dictionary lacking the MediaBox key. -/
def noMediaBoxPage : Dict :=
  [("Type", .name "Page"), ("Contents", .reference (2, 0))]

/-- A manuscript (with a full page tree) whose only page lacks MediaBox. -/
def noMediaBoxDoc : Document :=
  { objects :=
      [((1, 0), .dictionary [("Type", .name "Catalog"), ("Pages", .reference (2, 0))]),
       ((2, 0), .dictionary [("Type", .name "Pages"),
                             ("Kids", .array [.reference (3, 0)]),
                             ("Count", .integer 1)]),
       ((3, 0), .dictionary noMediaBoxPage)],
    maxId := 3,
    trailerRoot := (1, 0) }

/-- A page whose own XObject sub-table already binds the local name
"Overlay". -/
def overlayCollisionPage : Dict :=
  [("Type", .name "Page"),
   ("MediaBox", .array [.integer 0, .integer 0, .integer 432, .integer 648]),
   ("Contents", .reference (2, 0)),
   ("Resources", .dictionary
     [("XObject", .dictionary [("Overlay", .reference (2, 0))])])]

/-- The document holding `overlayCollisionPage`. -/
def overlayCollisionDoc : Document :=
  { objects :=
      [((1, 0), .dictionary overlayCollisionPage),
       ((2, 0), .stream [] (.raw [104]))],
    maxId := 2,
    trailerRoot := (1, 0) }

/-- Relation between the object stores before and after a pipeline stage, as
seen by the page-tree walk: an object is unchanged, or is a dictionary whose
keys outside MediaBox/Contents/Resources are unchanged (a stamped page), or
is a stream before and after (a re-encoded stream). -/
def viewPreserved (a b : Option Object) : Prop :=
  a = b ∨
  (∃ d d', a = some (.dictionary d) ∧ b = some (.dictionary d') ∧
    ∀ k, ¬(k = "MediaBox") → ¬(k = "Contents") → ¬(k = "Resources") →
      dictGet d' k = dictGet d k) ∨
  (∃ sd c sd' c', a = some (.stream sd c) ∧ b = some (.stream sd' c'))

/-! ## Basic lemmas about the dictionary and object-store operations -/

theorem dictGet_dictSet_self (d : Dict) (k : String) (v : Object) :
    dictGet (dictSet d k v) k = some v := by
  induction d with
  | nil => simp [dictSet, dictGet]
  | cons e rest ih =>
    obtain ⟨ek, ev⟩ := e
    by_cases h : ek = k
    · simp [dictSet, h, dictGet]
    · simp [dictSet, h, dictGet, ih]

theorem dictGet_dictSet_ne (d : Dict) (k k' : String) (v : Object)
    (h : k' ≠ k) : dictGet (dictSet d k v) k' = dictGet d k' := by
  have h' : ¬(k = k') := fun hk => h hk.symm
  induction d with
  | nil => simp [dictSet, dictGet, h']
  | cons e rest ih =>
    obtain ⟨ek, ev⟩ := e
    by_cases he : ek = k
    · subst he
      simp [dictSet, dictGet, h']
    · simp [dictSet, he, dictGet, ih]

theorem dictSet_append_of_not_mem (d : Dict) (k : String) (v : Object)
    (h : dictMem d k = false) : dictSet d k v = d ++ [(k, v)] := by
  induction d with
  | nil => simp [dictSet]
  | cons e rest ih =>
    obtain ⟨ek, ev⟩ := e
    by_cases he : ek = k
    · simp [dictMem, dictGet, he] at h
    · simp only [dictMem, dictGet, he, if_false] at h
      simp only [dictSet, he, if_false, List.cons_append, List.cons.injEq, true_and]
      exact ih h

theorem dictMem_append (a b : Dict) (k : String) :
    dictMem (a ++ b) k = (dictMem a k || dictMem b k) := by
  induction a with
  | nil => simp [dictMem, dictGet]
  | cons e rest ih =>
    obtain ⟨ek, ev⟩ := e
    by_cases he : ek = k
    · simp [dictMem, dictGet, he]
    · simpa [dictMem, dictGet, he] using ih

theorem dictMem_of_mem (d : Dict) (kv : String × Object) (h : kv ∈ d) :
    dictMem d kv.1 = true := by
  induction d with
  | nil => simp at h
  | cons e rest ih =>
    obtain ⟨ek, ev⟩ := e
    rcases List.mem_cons.mp h with h | h
    · subst h; simp [dictMem, dictGet]
    · by_cases he : ek = kv.1
      · simp [dictMem, dictGet, he]
      · simpa [dictMem, dictGet, he] using ih h

theorem foldl_dictSet_append (d : Dict) :
    ∀ acc : Dict, (∀ kv ∈ d, dictMem acc kv.1 = false) →
      dictKeysNodup d = true →
      List.foldl (fun a kv => dictSet a kv.1 kv.2) acc d = acc ++ d := by
  induction d with
  | nil => intro acc _ _; simp
  | cons e rest ih =>
    intro acc hfresh hnd
    obtain ⟨ek, ev⟩ := e
    simp only [dictKeysNodup, Bool.and_eq_true, Bool.not_eq_true'] at hnd
    have h1 : dictMem acc ek = false := hfresh (ek, ev) (by simp)
    simp only [List.foldl_cons]
    rw [dictSet_append_of_not_mem _ _ _ h1]
    have hstep : ∀ kv ∈ rest, dictMem (acc ++ [(ek, ev)]) kv.1 = false := by
      intro kv hkv
      rw [dictMem_append]
      have h3 : dictMem acc kv.1 = false := hfresh kv (by simp [hkv])
      have h4 : ¬(ek = kv.1) := by
        intro he
        have hm := dictMem_of_mem rest kv hkv
        rw [← he, hnd.1] at hm
        exact Bool.false_ne_true hm
      have h3' : dictGet acc kv.1 = none := by
        cases hda : dictGet acc kv.1 with
        | none => rfl
        | some _ => simp [dictMem, hda] at h3
      simp [h3', dictMem, dictGet, h4]
    rw [ih (acc ++ [(ek, ev)]) hstep hnd.2]
    simp

theorem dictExtend_nil (d : Dict) (hnd : dictKeysNodup d = true) :
    dictExtend [] d = d := by
  have hfn : dictExtend [] d = List.foldl (fun a kv => dictSet a kv.1 kv.2) [] d := by
    simp [dictExtend, dictMem, dictGet]
  rw [hfn, foldl_dictSet_append d [] (by intro kv _; simp [dictMem, dictGet]) hnd]
  simp

theorem getObj_setObj_self (l : List (ObjectId × Object)) (id : ObjectId)
    (v : Object) : getObj (setObj l id v) id = some v := by
  induction l with
  | nil => simp [setObj, getObj]
  | cons e rest ih =>
    obtain ⟨eid, ev⟩ := e
    by_cases h : eid = id
    · simp [setObj, h, getObj]
    · simp [setObj, h, getObj, ih]

theorem getObj_setObj_ne (l : List (ObjectId × Object)) (id id' : ObjectId)
    (v : Object) (h : id' ≠ id) :
    getObj (setObj l id v) id' = getObj l id' := by
  have h' : ¬(id = id') := fun hk => h hk.symm
  induction l with
  | nil => simp [setObj, getObj, h']
  | cons e rest ih =>
    obtain ⟨eid, ev⟩ := e
    by_cases he : eid = id
    · subst he
      simp [setObj, getObj, h']
    · simp [setObj, he, getObj, ih]

/-! ## Document operation lemmas -/

theorem lookup_addObject_self (doc : Document) (v : Object) :
    ((doc.addObject v).1).lookup (doc.addObject v).2 = some v := by
  simp [Document.addObject, Document.lookup, getObj_setObj_self]

theorem lookup_addObject_ne (doc : Document) (v : Object) (id : ObjectId)
    (h : id ≠ (doc.maxId + 1, 0)) :
    ((doc.addObject v).1).lookup id = doc.lookup id := by
  simp [Document.addObject, Document.lookup, getObj_setObj_ne _ _ _ _ h]

theorem lookup_insertObject_self (doc : Document) (id : ObjectId) (v : Object) :
    (doc.insertObject id v).lookup id = some v := by
  simp [Document.insertObject, Document.lookup, getObj_setObj_self]

theorem lookup_insertObject_ne (doc : Document) (id id' : ObjectId) (v : Object)
    (h : id' ≠ id) :
    (doc.insertObject id v).lookup id' = doc.lookup id' := by
  simp [Document.insertObject, Document.lookup, getObj_setObj_ne _ _ _ _ h]

/-! ## Characterization of `stampPageCore` -/

theorem stampPageCore_maxId (doc : Document) (pageId : ObjectId) (page : Dict)
    (aw ah tw th : ℚ) (fid : ObjectId) (cw : ℚ) (ts : String) (n : Nat) :
    (stampPageCore doc pageId page aw ah tw th fid cw ts n).maxId = doc.maxId + 5 := by
  simp only [stampPageCore, createOverlayXObject, Document.addObject,
    Document.insertObject]

theorem stampPageCore_trailerRoot (doc : Document) (pageId : ObjectId) (page : Dict)
    (aw ah tw th : ℚ) (fid : ObjectId) (cw : ℚ) (ts : String) (n : Nat) :
    (stampPageCore doc pageId page aw ah tw th fid cw ts n).trailerRoot =
      doc.trailerRoot := by
  simp only [stampPageCore, createOverlayXObject, Document.addObject,
    Document.insertObject]

theorem stampPageCore_frame (doc : Document) (pageId : ObjectId) (page : Dict)
    (aw ah tw th : ℚ) (fid : ObjectId) (cw : ℚ) (ts : String) (n : Nat)
    (id : ObjectId) (hne : id ≠ pageId) (hle : id.1 ≤ doc.maxId) :
    (stampPageCore doc pageId page aw ah tw th fid cw ts n).lookup id =
      doc.lookup id := by
  simp only [stampPageCore, createOverlayXObject, Document.addObject,
    Document.insertObject, Document.lookup]
  rw [getObj_setObj_ne _ _ _ _ hne]
  rw [getObj_setObj_ne _ _ _ _ (by intro h; rw [h] at hle; simp at hle; all_goals omega)]
  rw [getObj_setObj_ne _ _ _ _ (by intro h; rw [h] at hle; simp at hle; all_goals omega)]
  rw [getObj_setObj_ne _ _ _ _ (by intro h; rw [h] at hle; simp at hle; all_goals omega)]
  rw [getObj_setObj_ne _ _ _ _ (by intro h; rw [h] at hle; simp at hle; all_goals omega)]
  rw [getObj_setObj_ne _ _ _ _ (by intro h; rw [h] at hle; simp at hle; all_goals omega)]

theorem stampPageCore_start (doc : Document) (pageId : ObjectId) (page : Dict)
    (aw ah tw th : ℚ) (fid : ObjectId) (cw : ℚ) (ts : String) (n : Nat)
    (hpid : pageId.1 ≤ doc.maxId) :
    (stampPageCore doc pageId page aw ah tw th fid cw ts n).lookup
        (doc.maxId + 4, 0) =
      some (.stream [] (.encoded (stampStartOps ((595 - aw) / 2) ((842 - ah) / 2)))) := by
  simp only [stampPageCore, createOverlayXObject, Document.addObject,
    Document.insertObject, Document.lookup]
  rw [getObj_setObj_ne _ _ _ _
    (by intro h; rw [← h] at hpid; simp at hpid; all_goals omega)]
  rw [getObj_setObj_ne _ _ _ _ (by intro h; simp [Prod.ext_iff] at h; all_goals omega)]
  rw [getObj_setObj_self]

theorem stampPageCore_endStream (doc : Document) (pageId : ObjectId) (page : Dict)
    (aw ah tw th : ℚ) (fid : ObjectId) (cw : ℚ) (ts : String) (n : Nat)
    (hpid : pageId.1 ≤ doc.maxId) :
    (stampPageCore doc pageId page aw ah tw th fid cw ts n).lookup
        (doc.maxId + 5, 0) =
      some (.stream [] (.encoded stampEndOps)) := by
  simp only [stampPageCore, createOverlayXObject, Document.addObject,
    Document.insertObject, Document.lookup]
  rw [getObj_setObj_ne _ _ _ _
    (by intro h; rw [← h] at hpid; simp at hpid; all_goals omega)]
  rw [getObj_setObj_self]

theorem stampPageCore_overlayStream (doc : Document) (pageId : ObjectId)
    (page : Dict) (aw ah tw th : ℚ) (fid : ObjectId) (cw : ℚ) (ts : String)
    (n : Nat) (hpid : pageId.1 ≤ doc.maxId) :
    (stampPageCore doc pageId page aw ah tw th fid cw ts n).lookup
        (doc.maxId + 2, 0) =
      some (.stream
        [("Type", .name "XObject"),
         ("Subtype", .name "Form"),
         ("BBox", .array [.integer 0, .integer 0, .integer 595, .integer 842]),
         ("Resources", .dictionary [("Font", .reference (doc.maxId + 1, 0))])]
        (.encoded (overlayOps n ((595 - tw) / 2) ((842 - th) / 2) tw th cw ts))) := by
  simp only [stampPageCore, createOverlayXObject, Document.addObject,
    Document.insertObject, Document.lookup]
  rw [getObj_setObj_ne _ _ _ _
    (by intro h; rw [← h] at hpid; simp at hpid; all_goals omega)]
  rw [getObj_setObj_ne _ _ _ _ (by intro h; simp [Prod.ext_iff] at h; all_goals omega)]
  rw [getObj_setObj_ne _ _ _ _ (by intro h; simp [Prod.ext_iff] at h; all_goals omega)]
  rw [getObj_setObj_ne _ _ _ _ (by intro h; simp [Prod.ext_iff] at h; all_goals omega)]
  rw [getObj_setObj_self]

theorem originalContentsElems_dictSet (p : Dict) (k : String) (v : Object)
    (h : ¬(k = "Contents")) :
    originalContentsElems (dictSet p k v) = originalContentsElems p := by
  unfold originalContentsElems
  rw [dictGet_dictSet_ne p k "Contents" v (fun hh => h hh.symm)]

theorem stampPageCore_page (doc : Document) (pageId : ObjectId) (page : Dict)
    (aw ah tw th : ℚ) (fid : ObjectId) (cw : ℚ) (ts : String) (n : Nat) :
    ∃ res : Dict,
      (stampPageCore doc pageId page aw ah tw th fid cw ts n).lookup pageId =
        some (.dictionary (dictSet (dictSet (dictSet page "MediaBox"
          (.array [.integer 0, .integer 0, .integer 595, .integer 842]))
          "Resources" (.dictionary res))
          "Contents" (.array ([Object.reference (doc.maxId + 4, 0)] ++
            originalContentsElems page ++ [Object.reference (doc.maxId + 5, 0)])))) ∧
      dictGet res "XObject" = some (.reference (doc.maxId + 3, 0)) := by
  simp only [stampPageCore, createOverlayXObject, Document.addObject,
    Document.insertObject, Document.lookup]
  rw [getObj_setObj_self]
  rw [originalContentsElems_dictSet _ _ _ (by decide),
    originalContentsElems_dictSet _ _ _ (by decide)]
  exact ⟨_, rfl, dictGet_dictSet_self _ _ _⟩

/-! ## Characterization of `stampPage` -/

theorem stampPage_ok (doc : Document) (pageId : ObjectId) (page : Dict)
    (m0 m1 m2 m3 : Object) (x1 y1 x2 y2 tw th : ℚ) (fid : ObjectId) (cw : ℚ)
    (ts : String) (n : Nat)
    (hpg : doc.lookup pageId = some (.dictionary page))
    (hmb : dictGet page "MediaBox" = some (.array [m0, m1, m2, m3]))
    (h0 : objToRat m0 = .ok x1) (h1 : objToRat m1 = .ok y1)
    (h2 : objToRat m2 = .ok x2) (h3 : objToRat m3 = .ok y2) :
    stampPage doc pageId tw th fid cw ts n =
      .ok (stampPageCore doc pageId page (x2 - x1) (y2 - y1) tw th fid cw
        ts n) := by
  simp [stampPage, Document.getObject, hpg, asDict, dictGetE, hmb, h0, h1, h2, h3,
    Except.bind, bind]

theorem stampPage_missing_mediabox (doc : Document) (pageId : ObjectId)
    (page : Dict) (tw th : ℚ) (fid : ObjectId) (cw : ℚ) (ts : String) (n : Nat)
    (hpg : doc.lookup pageId = some (.dictionary page))
    (hmb : dictGet page "MediaBox" = none) :
    stampPage doc pageId tw th fid cw ts n = .error .dictKey := by
  simp [stampPage, Document.getObject, hpg, asDict, dictGetE, hmb,
    Except.bind, bind]

theorem getObj_some_mem (l : List (ObjectId × Object)) (id : ObjectId)
    (obj : Object) (h : getObj l id = some obj) : (id, obj) ∈ l := by
  induction l with
  | nil => simp [getObj] at h
  | cons e rest ih =>
    obtain ⟨eid, ev⟩ := e
    by_cases he : eid = id
    · subst he
      simp [getObj] at h
      subst h
      exact List.mem_cons_self _ _
    · simp [getObj, he] at h
      exact List.mem_cons_of_mem _ (ih h)

theorem lookup_le_maxId_of_wf (doc : Document) (id : ObjectId) (obj : Object)
    (hwf : doc.wf = true) (h : doc.lookup id = some obj) :
    id.1 ≤ doc.maxId := by
  have hmem := getObj_some_mem doc.objects id obj h
  have := List.all_eq_true.mp hwf (id, obj) hmem
  simpa using this

theorem stampPageCore_xobjectDict (doc : Document) (pageId : ObjectId)
    (page : Dict) (aw ah tw th : ℚ) (fid : ObjectId) (cw : ℚ) (ts : String)
    (n : Nat) (hpid : pageId.1 ≤ doc.maxId) :
    ∃ xd0 : Dict,
      (stampPageCore doc pageId page aw ah tw th fid cw ts n).lookup
          (doc.maxId + 3, 0) =
        some (.dictionary (dictSet xd0 "Overlay"
          (.reference (doc.maxId + 2, 0)))) := by
  simp only [stampPageCore, createOverlayXObject, Document.addObject,
    Document.insertObject, Document.lookup]
  rw [getObj_setObj_ne _ _ _ _
    (by intro h; rw [← h] at hpid; simp at hpid; all_goals omega)]
  rw [getObj_setObj_ne _ _ _ _ (by intro h; simp [Prod.ext_iff] at h; all_goals omega)]
  rw [getObj_setObj_ne _ _ _ _ (by intro h; simp [Prod.ext_iff] at h; all_goals omega)]
  rw [getObj_setObj_self]
  exact ⟨_, rfl⟩

theorem stampPageCore_overlayBinding (doc : Document) (pageId : ObjectId)
    (page : Dict) (aw ah tw th : ℚ) (fid : ObjectId) (cw : ℚ) (ts : String)
    (n : Nat) (hpid : pageId.1 ≤ doc.maxId) :
    xobjectBinding (stampPageCore doc pageId page aw ah tw th fid cw ts n)
        pageId "Overlay" =
      some (.reference (doc.maxId + 2, 0)) := by
  obtain ⟨res, hpage, hres⟩ :=
    stampPageCore_page doc pageId page aw ah tw th fid cw ts n
  obtain ⟨xd0, hxd⟩ :=
    stampPageCore_xobjectDict doc pageId page aw ah tw th fid cw ts n hpid
  have h1 : dictGet (dictSet (dictSet (dictSet page "MediaBox"
      (.array [.integer 0, .integer 0, .integer 595, .integer 842]))
      "Resources" (.dictionary res))
      "Contents" (.array ([Object.reference (doc.maxId + 4, 0)] ++
        originalContentsElems page ++ [Object.reference (doc.maxId + 5, 0)])))
      "Resources" = some (.dictionary res) := by
    rw [dictGet_dictSet_ne _ _ _ _ (by decide), dictGet_dictSet_self]
  simp only [xobjectBinding, hpage, h1, hres, hxd, dictGet_dictSet_self]

theorem stampPageCore_resources (doc : Document) (pageId : ObjectId)
    (page : Dict) (aw ah tw th : ℚ) (fid : ObjectId) (cw : ℚ) (ts : String)
    (n : Nat) (rd xd : Dict) (hpid : pageId.1 ≤ doc.maxId)
    (hres : dictGet page "Resources" = some (.dictionary rd))
    (hxo : dictGet rd "XObject" = some (.dictionary xd))
    (hndrd : dictKeysNodup rd = true) (hndxd : dictKeysNodup xd = true) :
    (stampPageCore doc pageId page aw ah tw th fid cw ts n).lookup
        (doc.maxId + 3, 0) =
      some (.dictionary (dictSet xd "Overlay" (.reference (doc.maxId + 2, 0)))) ∧
    (stampPageCore doc pageId page aw ah tw th fid cw ts n).lookup pageId =
      some (.dictionary (dictSet (dictSet (dictSet page "MediaBox"
        (.array [.integer 0, .integer 0, .integer 595, .integer 842]))
        "Resources" (.dictionary (dictSet rd "XObject"
          (.reference (doc.maxId + 3, 0)))))
        "Contents" (.array ([Object.reference (doc.maxId + 4, 0)] ++
          originalContentsElems page ++ [Object.reference (doc.maxId + 5, 0)])))) := by
  have hres' : dictGet (dictSet page "MediaBox"
      (.array [.integer 0, .integer 0, .integer 595, .integer 842]))
      "Resources" = some (.dictionary rd) := by
    rw [dictGet_dictSet_ne _ _ _ _ (by decide)]; exact hres
  constructor
  · simp only [stampPageCore, createOverlayXObject, Document.addObject,
      Document.insertObject, Document.lookup, hres', hxo]
    rw [dictExtend_nil xd hndxd]
    rw [getObj_setObj_ne _ _ _ _
      (by intro h; rw [← h] at hpid; simp at hpid; all_goals omega)]
    rw [getObj_setObj_ne _ _ _ _ (by intro h; simp [Prod.ext_iff] at h; all_goals omega)]
    rw [getObj_setObj_ne _ _ _ _ (by intro h; simp [Prod.ext_iff] at h; all_goals omega)]
    rw [getObj_setObj_self]
  · simp only [stampPageCore, createOverlayXObject, Document.addObject,
      Document.insertObject, Document.lookup, hres', hxo]
    rw [dictExtend_nil rd hndrd]
    rw [getObj_setObj_self]
    rw [originalContentsElems_dictSet _ _ _ (by decide),
      originalContentsElems_dictSet _ _ _ (by decide)]

/-! ## Claim theorems (per-page claims) -/

/-- C1: for every page processed by the stamp strategy whose Contents is a
Reference or an Array, the rebuilt Contents is an ordered array whose middle
elements are exactly the original reference (resp. the original array's
elements, in order), and the byte payload of every raw stream object in the
document is unchanged by stamping. -/
theorem stamp_preserves_original_streams (doc : Document) (pageId : ObjectId)
    (page : Dict) (m0 m1 m2 m3 : Object) (x1 y1 x2 y2 tw th : ℚ)
    (fid : ObjectId) (cw : ℚ) (ts : String) (n : Nat)
    (hwf : doc.wf = true)
    (hpg : doc.lookup pageId = some (.dictionary page))
    (hmb : dictGet page "MediaBox" = some (.array [m0, m1, m2, m3]))
    (h0 : objToRat m0 = .ok x1) (h1 : objToRat m1 = .ok y1)
    (h2 : objToRat m2 = .ok x2) (h3 : objToRat m3 = .ok y2)
    (hshape : (∃ r, dictGet page "Contents" = some (.reference r)) ∨
      (∃ arr, dictGet page "Contents" = some (.array arr))) :
    ∃ doc' startId endId d',
      stampPage doc pageId tw th fid cw ts n = .ok doc' ∧
      doc'.lookup pageId = some (.dictionary d') ∧
      dictGet d' "Contents" = some (.array ([Object.reference startId] ++
        originalContentsElems page ++ [Object.reference endId])) ∧
      (∀ r, dictGet page "Contents" = some (.reference r) →
        originalContentsElems page = [Object.reference r]) ∧
      (∀ arr, dictGet page "Contents" = some (.array arr) →
        originalContentsElems page = arr) ∧
      ∀ id sd bytes, doc.lookup id = some (.stream sd (.raw bytes)) →
        doc'.lookup id = some (.stream sd (.raw bytes)) := by
  obtain ⟨res, hpage, hres⟩ :=
    stampPageCore_page doc pageId page (x2 - x1) (y2 - y1) tw th fid cw ts n
  refine ⟨_, (doc.maxId + 4, 0), (doc.maxId + 5, 0), _,
    stampPage_ok doc pageId page m0 m1 m2 m3 x1 y1 x2 y2 tw th fid cw ts n
      hpg hmb h0 h1 h2 h3,
    hpage, dictGet_dictSet_self _ _ _, ?_, ?_, ?_⟩
  · intro r hr; simp [originalContentsElems, hr]
  · intro arr harr; simp [originalContentsElems, harr]
  · intro id sd bytes hs
    have hne : id ≠ pageId := by
      intro he; subst he; rw [hpg] at hs; simp at hs
    have hle : id.1 ≤ doc.maxId := lookup_le_maxId_of_wf doc id _ hwf hs
    rw [stampPageCore_frame doc pageId page (x2 - x1) (y2 - y1) tw th fid cw
      ts n id hne hle]
    exact hs

/-- C1 witness at the concrete one-page manuscript. -/
theorem stamp_preserves_original_streams_witness :
    ∃ doc' startId endId d',
      stampPage sampleDoc (3, 0) 432 648 (9, 0) (1/2) "ts" 1 = .ok doc' ∧
      doc'.lookup (3, 0) = some (.dictionary d') ∧
      dictGet d' "Contents" = some (.array ([Object.reference startId] ++
        originalContentsElems samplePage ++ [Object.reference endId])) ∧
      (∀ r, dictGet samplePage "Contents" = some (.reference r) →
        originalContentsElems samplePage = [Object.reference r]) ∧
      (∀ arr, dictGet samplePage "Contents" = some (.array arr) →
        originalContentsElems samplePage = arr) ∧
      ∀ id sd bytes, sampleDoc.lookup id = some (.stream sd (.raw bytes)) →
        doc'.lookup id = some (.stream sd (.raw bytes)) :=
  stamp_preserves_original_streams sampleDoc (3, 0) samplePage
    (.integer 0) (.integer 0) (.integer 432) (.integer 648)
    ((0 : Int) : ℚ) ((0 : Int) : ℚ) ((432 : Int) : ℚ) ((648 : Int) : ℚ)
    432 648 (9, 0) (1/2) "ts" 1 (by rfl) (by rfl) (by rfl) (by rfl) (by rfl)
    (by rfl) (by rfl) (Or.inl ⟨(4, 0), by rfl⟩)

/-- C10: stamping mutates only the page's MediaBox, Contents and Resources
entries; every other key of the page dictionary keeps its value, every other
object at an already-allocated id is unchanged, new objects appear only at the
five freshly allocated ids (all above the old `max_id`, where nothing was
stored before). -/
theorem stamp_frame_effect (doc : Document) (pageId : ObjectId)
    (page : Dict) (m0 m1 m2 m3 : Object) (x1 y1 x2 y2 tw th : ℚ)
    (fid : ObjectId) (cw : ℚ) (ts : String) (n : Nat)
    (hwf : doc.wf = true)
    (hpg : doc.lookup pageId = some (.dictionary page))
    (hmb : dictGet page "MediaBox" = some (.array [m0, m1, m2, m3]))
    (h0 : objToRat m0 = .ok x1) (h1 : objToRat m1 = .ok y1)
    (h2 : objToRat m2 = .ok x2) (h3 : objToRat m3 = .ok y2) :
    ∃ doc' d',
      stampPage doc pageId tw th fid cw ts n = .ok doc' ∧
      doc'.lookup pageId = some (.dictionary d') ∧
      (∀ k, ¬(k = "MediaBox") → ¬(k = "Contents") → ¬(k = "Resources") →
        dictGet d' k = dictGet page k) ∧
      (∀ id, id ≠ pageId → id.1 ≤ doc.maxId → doc'.lookup id = doc.lookup id) ∧
      (∀ id obj, id ≠ pageId → doc.lookup id = some obj →
        doc'.lookup id = some obj) ∧
      (∀ id, doc.maxId < id.1 → doc.lookup id = none) ∧
      doc'.maxId = doc.maxId + 5 := by
  obtain ⟨res, hpage, hres⟩ :=
    stampPageCore_page doc pageId page (x2 - x1) (y2 - y1) tw th fid cw ts n
  refine ⟨_, _,
    stampPage_ok doc pageId page m0 m1 m2 m3 x1 y1 x2 y2 tw th fid cw ts n
      hpg hmb h0 h1 h2 h3,
    hpage, ?_, ?_, ?_, ?_, ?_⟩
  · intro k hk1 hk2 hk3
    rw [dictGet_dictSet_ne _ _ _ _ hk2, dictGet_dictSet_ne _ _ _ _ hk3,
      dictGet_dictSet_ne _ _ _ _ hk1]
  · intro id hne hle
    exact stampPageCore_frame doc pageId page (x2 - x1) (y2 - y1) tw th fid cw
      ts n id hne hle
  · intro id obj hne hs
    have hle : id.1 ≤ doc.maxId := lookup_le_maxId_of_wf doc id _ hwf hs
    rw [stampPageCore_frame doc pageId page (x2 - x1) (y2 - y1) tw th fid cw
      ts n id hne hle]
    exact hs
  · intro id hgt
    cases hs : doc.lookup id with
    | none => rfl
    | some obj =>
      have := lookup_le_maxId_of_wf doc id obj hwf hs
      omega
  · exact stampPageCore_maxId doc pageId page (x2 - x1) (y2 - y1) tw th fid cw
      ts n

/-- C10 witness at the concrete one-page manuscript. -/
theorem stamp_frame_effect_witness :
    ∃ doc' d',
      stampPage sampleDoc (3, 0) 432 648 (9, 0) (1/2) "ts" 1 = .ok doc' ∧
      doc'.lookup (3, 0) = some (.dictionary d') ∧
      (∀ k, ¬(k = "MediaBox") → ¬(k = "Contents") → ¬(k = "Resources") →
        dictGet d' k = dictGet samplePage k) ∧
      (∀ id, id ≠ (3, 0) → id.1 ≤ sampleDoc.maxId →
        doc'.lookup id = sampleDoc.lookup id) ∧
      (∀ id obj, id ≠ (3, 0) → sampleDoc.lookup id = some obj →
        doc'.lookup id = some obj) ∧
      (∀ id, sampleDoc.maxId < id.1 → sampleDoc.lookup id = none) ∧
      doc'.maxId = sampleDoc.maxId + 5 :=
  stamp_frame_effect sampleDoc (3, 0) samplePage
    (.integer 0) (.integer 0) (.integer 432) (.integer 648)
    ((0 : Int) : ℚ) ((0 : Int) : ℚ) ((432 : Int) : ℚ) ((648 : Int) : ℚ)
    432 648 (9, 0) (1/2) "ts" 1 (by rfl) (by rfl) (by rfl) (by rfl) (by rfl)
    (by rfl) (by rfl)

/-- C4 counterexample: a page with a MediaBox but no Contents key stamps
successfully (the code treats an absent Contents as a blank page), so a
missing Contents is not fatal as the claim states. -/
theorem stamp_missing_contents_ok_cx :
    isOkE (stampPage noContentsDoc (1, 0) 432 648 (5, 0) (1/2) "ts" 1) = true := by
  rfl

/-- C4 amended: a missing MediaBox is fatal for the batch, but a missing
Contents is tolerated: the page is stamped as a blank page, its Contents
rebuilt as the two-element wrapper array [start, end]. -/
theorem stamp_required_keys_amended :
    (∀ (doc : Document) (pageId : ObjectId) (page : Dict) (tw th : ℚ)
      (fid : ObjectId) (cw : ℚ) (ts : String) (n : Nat),
      doc.lookup pageId = some (.dictionary page) →
      dictGet page "MediaBox" = none →
      stampPage doc pageId tw th fid cw ts n = .error .dictKey) ∧
    (∀ (doc : Document) (pageId : ObjectId) (page : Dict)
      (m0 m1 m2 m3 : Object) (x1 y1 x2 y2 tw th : ℚ) (fid : ObjectId) (cw : ℚ)
      (ts : String) (n : Nat),
      doc.lookup pageId = some (.dictionary page) →
      dictGet page "MediaBox" = some (.array [m0, m1, m2, m3]) →
      objToRat m0 = .ok x1 → objToRat m1 = .ok y1 →
      objToRat m2 = .ok x2 → objToRat m3 = .ok y2 →
      dictGet page "Contents" = none →
      ∃ doc' d' s e,
        stampPage doc pageId tw th fid cw ts n = .ok doc' ∧
        doc'.lookup pageId = some (.dictionary d') ∧
        dictGet d' "Contents" =
          some (.array [Object.reference s, Object.reference e])) := by
  constructor
  · intro doc pageId page tw th fid cw ts n hpg hmb
    exact stampPage_missing_mediabox doc pageId page tw th fid cw ts n hpg hmb
  · intro doc pageId page m0 m1 m2 m3 x1 y1 x2 y2 tw th fid cw ts n hpg hmb
      h0 h1 h2 h3 hc
    obtain ⟨res, hpage, hres⟩ :=
      stampPageCore_page doc pageId page (x2 - x1) (y2 - y1) tw th fid cw ts n
    have hoce : originalContentsElems page = [] := by
      simp [originalContentsElems, hc]
    rw [hoce] at hpage
    exact ⟨_, _, (doc.maxId + 4, 0), (doc.maxId + 5, 0),
      stampPage_ok doc pageId page m0 m1 m2 m3 x1 y1 x2 y2 tw th fid cw ts n
        hpg hmb h0 h1 h2 h3,
      hpage, dictGet_dictSet_self _ _ _⟩

/-- C4 witness: the missing-MediaBox page aborts with the dictionary-key
error; the missing-Contents page stamps to a two-element Contents. -/
theorem stamp_required_keys_amended_witness :
    stampPage noMediaBoxDoc (3, 0) 432 648 (9, 0) (1/2) "ts" 1 =
      .error .dictKey ∧
    ∃ doc' d' s e,
      stampPage noContentsDoc (1, 0) 432 648 (5, 0) (1/2) "ts" 1 = .ok doc' ∧
      doc'.lookup (1, 0) = some (.dictionary d') ∧
      dictGet d' "Contents" =
        some (.array [Object.reference s, Object.reference e]) :=
  ⟨stamp_required_keys_amended.1 noMediaBoxDoc (3, 0) noMediaBoxPage
      432 648 (9, 0) (1/2) "ts" 1 (by rfl) (by rfl),
   stamp_required_keys_amended.2 noContentsDoc (1, 0) noContentsPage
      (.integer 0) (.integer 0) (.integer 432) (.integer 648)
      ((0 : Int) : ℚ) ((0 : Int) : ℚ) ((432 : Int) : ℚ) ((648 : Int) : ℚ)
      432 648 (5, 0) (1/2) "ts" 1 (by rfl) (by rfl) (by rfl) (by rfl) (by rfl)
      (by rfl) (by rfl)⟩

/-- C6 counterexample: on a page whose own XObject sub-table already binds
the local name "Overlay", stamping displaces that binding (the code `set`s
"Overlay" after copying the existing entries), so the base does not win on
this collision. -/
theorem stamp_overlay_binding_displaced_cx :
    (match stampPage overlayCollisionDoc (1, 0) 432 648 (9, 0) (1/2) "ts" 1 with
     | .ok d => xobjectBinding d (1, 0) "Overlay"
     | .error _ => none) ≠ some (.reference (2, 0)) := by
  intro h
  rw [show (match stampPage overlayCollisionDoc (1, 0) 432 648 (9, 0) (1/2)
        "ts" 1 with
      | .ok d => xobjectBinding d (1, 0) "Overlay"
      | .error _ => none) = some (.reference (4, 0)) from rfl] at h
  simp at h

/-- C6 amended: when the stamp strategy rebuilds a page's Resources, every
binding of the page's own XObject sub-table under a local name other than
"Overlay" is preserved, and every resource class other than XObject is
preserved; the name "Overlay" itself is (re)bound to the freshly created
overlay Form XObject, displacing any existing binding of that one name. -/
theorem stamp_resource_merge_amended (doc : Document) (pageId : ObjectId)
    (page : Dict) (m0 m1 m2 m3 : Object) (x1 y1 x2 y2 tw th : ℚ)
    (fid : ObjectId) (cw : ℚ) (ts : String) (n : Nat) (rd xd : Dict)
    (hwf : doc.wf = true)
    (hpg : doc.lookup pageId = some (.dictionary page))
    (hmb : dictGet page "MediaBox" = some (.array [m0, m1, m2, m3]))
    (h0 : objToRat m0 = .ok x1) (h1 : objToRat m1 = .ok y1)
    (h2 : objToRat m2 = .ok x2) (h3 : objToRat m3 = .ok y2)
    (hres : dictGet page "Resources" = some (.dictionary rd))
    (hxo : dictGet rd "XObject" = some (.dictionary xd))
    (hndrd : dictKeysNodup rd = true) (hndxd : dictKeysNodup xd = true) :
    ∃ doc',
      stampPage doc pageId tw th fid cw ts n = .ok doc' ∧
      (∀ nm, ¬(nm = "Overlay") →
        xobjectBinding doc' pageId nm = dictGet xd nm) ∧
      xobjectBinding doc' pageId "Overlay" =
        some (.reference (doc.maxId + 2, 0)) ∧
      ∃ d' res2,
        doc'.lookup pageId = some (.dictionary d') ∧
        dictGet d' "Resources" = some (.dictionary res2) ∧
        (∀ c, ¬(c = "XObject") → dictGet res2 c = dictGet rd c) ∧
        dictGet res2 "XObject" = some (.reference (doc.maxId + 3, 0)) := by
  have hpid : pageId.1 ≤ doc.maxId :=
    lookup_le_maxId_of_wf doc pageId _ hwf hpg
  obtain ⟨hxdict, hpage⟩ :=
    stampPageCore_resources doc pageId page (x2 - x1) (y2 - y1) tw th fid cw
      ts n rd xd hpid hres hxo hndrd hndxd
  have hresd : dictGet (dictSet (dictSet (dictSet page "MediaBox"
      (.array [.integer 0, .integer 0, .integer 595, .integer 842]))
      "Resources" (.dictionary (dictSet rd "XObject"
        (.reference (doc.maxId + 3, 0)))))
      "Contents" (.array ([Object.reference (doc.maxId + 4, 0)] ++
        originalContentsElems page ++ [Object.reference (doc.maxId + 5, 0)])))
      "Resources" =
      some (.dictionary (dictSet rd "XObject"
        (.reference (doc.maxId + 3, 0)))) := by
    rw [dictGet_dictSet_ne _ _ _ _ (by decide), dictGet_dictSet_self]
  refine ⟨_,
    stampPage_ok doc pageId page m0 m1 m2 m3 x1 y1 x2 y2 tw th fid cw ts n
      hpg hmb h0 h1 h2 h3, ?_, ?_, _, _, hpage, hresd, ?_, ?_⟩
  · intro nm hnm
    simp only [xobjectBinding, hpage, hresd, dictGet_dictSet_self, hxdict]
    exact dictGet_dictSet_ne _ _ _ _ hnm
  · simp only [xobjectBinding, hpage, hresd, dictGet_dictSet_self, hxdict]
  · intro c hc
    exact dictGet_dictSet_ne _ _ _ _ hc
  · exact dictGet_dictSet_self _ _ _

/-- C6 amended witness at the concrete one-page manuscript (its XObject
sub-table binds "Im1"). -/
theorem stamp_resource_merge_amended_witness :
    ∃ doc',
      stampPage sampleDoc (3, 0) 432 648 (9, 0) (1/2) "ts" 1 = .ok doc' ∧
      (∀ nm, ¬(nm = "Overlay") →
        xobjectBinding doc' (3, 0) nm =
          dictGet [("Im1", .reference (4, 0))] nm) ∧
      xobjectBinding doc' (3, 0) "Overlay" =
        some (.reference (sampleDoc.maxId + 2, 0)) ∧
      ∃ d' res2,
        doc'.lookup (3, 0) = some (.dictionary d') ∧
        dictGet d' "Resources" = some (.dictionary res2) ∧
        (∀ c, ¬(c = "XObject") →
          dictGet res2 c =
            dictGet [("Font", .dictionary [("F9", .reference (4, 0))]),
                     ("XObject", .dictionary [("Im1", .reference (4, 0))])] c) ∧
        dictGet res2 "XObject" =
          some (.reference (sampleDoc.maxId + 3, 0)) :=
  stamp_resource_merge_amended sampleDoc (3, 0) samplePage
    (.integer 0) (.integer 0) (.integer 432) (.integer 648)
    ((0 : Int) : ℚ) ((0 : Int) : ℚ) ((432 : Int) : ℚ) ((648 : Int) : ℚ)
    432 648 (9, 0) (1/2) "ts" 1
    [("Font", .dictionary [("F9", .reference (4, 0))]),
     ("XObject", .dictionary [("Im1", .reference (4, 0))])]
    [("Im1", .reference (4, 0))]
    (by rfl) (by rfl) (by rfl) (by rfl) (by rfl) (by rfl) (by rfl) (by rfl)
    (by rfl) (by rfl) (by rfl)

/-- C3: for every page with a well-formed MediaBox, the stamp strategy
computes the content size as (x2 − x1, y2 − y1), centers it on the 595×842
canvas, synthesizes a start stream holding the overlay-drawing invocation
(Do on the "Overlay" Form XObject, whose stream holds the crop-mark,
timestamp and page-number drawing operations) followed by the graphics-state
save q and the translation cm with operands (1,0,0,1,(595−w)/2,(842−h)/2),
synthesizes an end stream holding exactly Q, and writes the mutated page
dictionary back at its original id with Contents [start, original…, end]. -/
theorem stamp_geometry_and_wrappers (doc : Document) (pageId : ObjectId)
    (page : Dict) (m0 m1 m2 m3 : Object) (x1 y1 x2 y2 tw th : ℚ)
    (fid : ObjectId) (cw : ℚ) (ts : String) (n : Nat)
    (hwf : doc.wf = true)
    (hpg : doc.lookup pageId = some (.dictionary page))
    (hmb : dictGet page "MediaBox" = some (.array [m0, m1, m2, m3]))
    (h0 : objToRat m0 = .ok x1) (h1 : objToRat m1 = .ok y1)
    (h2 : objToRat m2 = .ok x2) (h3 : objToRat m3 = .ok y2) :
    ∃ doc' d',
      stampPage doc pageId tw th fid cw ts n = .ok doc' ∧
      doc'.lookup (doc.maxId + 4, 0) = some (.stream [] (.encoded
        [("Do", [.name "Overlay"]), ("q", []),
         ("cm", [.integer 1, .integer 0, .integer 0, .integer 1,
                 .real ((595 - (x2 - x1)) / 2),
                 .real ((842 - (y2 - y1)) / 2)])])) ∧
      doc'.lookup (doc.maxId + 5, 0) =
        some (.stream [] (.encoded [("Q", [])])) ∧
      resolvedOverlay doc' pageId = some (doc.maxId + 2, 0) ∧
      (∃ xd, doc'.lookup (doc.maxId + 2, 0) = some (.stream xd (.encoded
        (generateCropMarks ((595 - tw) / 2) ((842 - th) / 2) tw th ++
         generateDatetime ts "F1" ++ generatePageNumber n 595 "F1" cw)))) ∧
      doc'.lookup pageId = some (.dictionary d') ∧
      dictGet d' "Contents" = some (.array
        ([Object.reference (doc.maxId + 4, 0)] ++ originalContentsElems page ++
         [Object.reference (doc.maxId + 5, 0)])) := by
  have hpid : pageId.1 ≤ doc.maxId :=
    lookup_le_maxId_of_wf doc pageId _ hwf hpg
  obtain ⟨res, hpage, hres⟩ :=
    stampPageCore_page doc pageId page (x2 - x1) (y2 - y1) tw th fid cw ts n
  refine ⟨_, _,
    stampPage_ok doc pageId page m0 m1 m2 m3 x1 y1 x2 y2 tw th fid cw ts n
      hpg hmb h0 h1 h2 h3,
    stampPageCore_start doc pageId page (x2 - x1) (y2 - y1) tw th fid cw ts n
      hpid,
    stampPageCore_endStream doc pageId page (x2 - x1) (y2 - y1) tw th fid cw
      ts n hpid, ?_,
    ⟨_, stampPageCore_overlayStream doc pageId page (x2 - x1) (y2 - y1) tw th
      fid cw ts n hpid⟩,
    hpage, dictGet_dictSet_self _ _ _⟩
  simp only [resolvedOverlay,
    stampPageCore_overlayBinding doc pageId page (x2 - x1) (y2 - y1) tw th fid
      cw ts n hpid]

/-- C3 witness at the concrete one-page manuscript. -/
theorem stamp_geometry_and_wrappers_witness :
    ∃ doc' d',
      stampPage sampleDoc (3, 0) 432 648 (9, 0) (1/2) "ts" 1 = .ok doc' ∧
      doc'.lookup (sampleDoc.maxId + 4, 0) = some (.stream [] (.encoded
        [("Do", [.name "Overlay"]), ("q", []),
         ("cm", [.integer 1, .integer 0, .integer 0, .integer 1,
                 .real ((595 - (((432 : Int) : ℚ) - ((0 : Int) : ℚ))) / 2),
                 .real ((842 - (((648 : Int) : ℚ) - ((0 : Int) : ℚ))) / 2)])])) ∧
      doc'.lookup (sampleDoc.maxId + 5, 0) =
        some (.stream [] (.encoded [("Q", [])])) ∧
      resolvedOverlay doc' (3, 0) = some (sampleDoc.maxId + 2, 0) ∧
      (∃ xd, doc'.lookup (sampleDoc.maxId + 2, 0) = some (.stream xd (.encoded
        (generateCropMarks ((595 - 432) / 2) ((842 - 648) / 2) 432 648 ++
         generateDatetime "ts" "F1" ++ generatePageNumber 1 595 "F1" (1/2))))) ∧
      doc'.lookup (3, 0) = some (.dictionary d') ∧
      dictGet d' "Contents" = some (.array
        ([Object.reference (sampleDoc.maxId + 4, 0)] ++
         originalContentsElems samplePage ++
         [Object.reference (sampleDoc.maxId + 5, 0)])) :=
  stamp_geometry_and_wrappers sampleDoc (3, 0) samplePage
    (.integer 0) (.integer 0) (.integer 432) (.integer 648)
    ((0 : Int) : ℚ) ((0 : Int) : ℚ) ((432 : Int) : ℚ) ((648 : Int) : ℚ)
    432 648 (9, 0) (1/2) "ts" 1 (by rfl) (by rfl) (by rfl) (by rfl) (by rfl)
    (by rfl) (by rfl)

/-- C2: stamping a page of width 432 and height 648 (single content-stream
Reference) with trim 432×648 rewrites MediaBox to [0,0,595,842], rebuilds
Contents as the 3-element array [start, original, end], and the start
stream's cm translation operands are exactly 163/2 = 81.5 and 97. -/
theorem stamp_trade_scenario (doc : Document) (pageId : ObjectId)
    (page : Dict) (m0 m1 m2 m3 : Object) (x1 y1 x2 y2 : ℚ) (cref : ObjectId)
    (fid : ObjectId) (cw : ℚ) (ts : String) (n : Nat)
    (hwf : doc.wf = true)
    (hpg : doc.lookup pageId = some (.dictionary page))
    (hmb : dictGet page "MediaBox" = some (.array [m0, m1, m2, m3]))
    (h0 : objToRat m0 = .ok x1) (h1 : objToRat m1 = .ok y1)
    (h2 : objToRat m2 = .ok x2) (h3 : objToRat m3 = .ok y2)
    (hw : x2 - x1 = 432) (hh : y2 - y1 = 648)
    (hc : dictGet page "Contents" = some (.reference cref)) :
    ∃ doc' d',
      stampPage doc pageId 432 648 fid cw ts n = .ok doc' ∧
      doc'.lookup pageId = some (.dictionary d') ∧
      dictGet d' "MediaBox" =
        some (.array [.integer 0, .integer 0, .integer 595, .integer 842]) ∧
      dictGet d' "Contents" = some (.array
        [Object.reference (doc.maxId + 4, 0), Object.reference cref,
         Object.reference (doc.maxId + 5, 0)]) ∧
      doc'.lookup (doc.maxId + 4, 0) =
        some (.stream [] (.encoded (stampStartOps (163/2) 97))) := by
  obtain ⟨res, hpage, hres⟩ :=
    stampPageCore_page doc pageId page (x2 - x1) (y2 - y1) 432 648 fid cw ts n
  have hpid : pageId.1 ≤ doc.maxId :=
    lookup_le_maxId_of_wf doc pageId _ hwf hpg
  have hoce : originalContentsElems page = [Object.reference cref] := by
    simp [originalContentsElems, hc]
  rw [hoce] at hpage
  have hstart := stampPageCore_start doc pageId page (x2 - x1) (y2 - y1)
    432 648 fid cw ts n hpid
  have e1 : (595 - (x2 - x1) : ℚ) / 2 = 163/2 := by rw [hw]; norm_num
  have e2 : (842 - (y2 - y1) : ℚ) / 2 = 97 := by rw [hh]; norm_num
  rw [e1, e2] at hstart
  refine ⟨_, _,
    stampPage_ok doc pageId page m0 m1 m2 m3 x1 y1 x2 y2 432 648 fid cw ts n
      hpg hmb h0 h1 h2 h3,
    hpage, ?_, ?_, hstart⟩
  · rw [dictGet_dictSet_ne _ _ _ _ (by decide),
      dictGet_dictSet_ne _ _ _ _ (by decide), dictGet_dictSet_self]
  · have := dictGet_dictSet_self (dictSet (dictSet page "MediaBox"
      (.array [.integer 0, .integer 0, .integer 595, .integer 842]))
      "Resources" (.dictionary res)) "Contents"
      (.array ([Object.reference (doc.maxId + 4, 0)] ++
        [Object.reference cref] ++ [Object.reference (doc.maxId + 5, 0)]))
    simpa using this

/-- C2 witness at the concrete one-page manuscript. -/
theorem stamp_trade_scenario_witness :
    ∃ doc' d',
      stampPage sampleDoc (3, 0) 432 648 (9, 0) (1/2) "ts" 1 = .ok doc' ∧
      doc'.lookup (3, 0) = some (.dictionary d') ∧
      dictGet d' "MediaBox" =
        some (.array [.integer 0, .integer 0, .integer 595, .integer 842]) ∧
      dictGet d' "Contents" = some (.array
        [Object.reference (sampleDoc.maxId + 4, 0), Object.reference (4, 0),
         Object.reference (sampleDoc.maxId + 5, 0)]) ∧
      doc'.lookup (sampleDoc.maxId + 4, 0) =
        some (.stream [] (.encoded (stampStartOps (163/2) 97))) :=
  stamp_trade_scenario sampleDoc (3, 0) samplePage
    (.integer 0) (.integer 0) (.integer 432) (.integer 648)
    ((0 : Int) : ℚ) ((0 : Int) : ℚ) ((432 : Int) : ℚ) ((648 : Int) : ℚ)
    (4, 0) (9, 0) (1/2) "ts" 1 (by rfl) (by rfl) (by rfl) (by rfl) (by rfl)
    (by rfl) (by rfl) (by norm_num) (by norm_num) (by rfl)

theorem nearPoint_intro {x y cx cy r : ℚ} (hx : |x - cx| ≤ r)
    (hy : |y - cy| ≤ r) : nearPoint (x, y) (cx, cy) r :=
  ⟨hx, hy⟩

/-- C8: crop-mark geometry is keyed off the trim rectangle: for every trim
width and height, the stamp pipeline's crop-mark arguments (the trim
rectangle centered on the 595×842 canvas) produce exactly 8 straight
segments, each of whose endpoints lies within 25 points (componentwise) of a
corner of that trim rectangle; the marks are a function of the trim size
alone given the fixed canvas, so changing it moves every mark accordingly. -/
theorem crop_marks_near_trim_corners (tw th : ℚ) :
    (markSegments (generateCropMarks ((595 - tw) / 2) ((842 - th) / 2)
      tw th)).length = 8 ∧
    ∀ s ∈ markSegments (generateCropMarks ((595 - tw) / 2) ((842 - th) / 2)
        tw th),
      ∃ c ∈ trimCorners tw th, nearPoint s.1 c 25 ∧ nearPoint s.2 c 25 := by
  constructor
  · rfl
  · intro s hs
    simp only [generateCropMarks, markSegments, List.mem_cons,
      List.not_mem_nil, or_false] at hs
    rcases hs with rfl | rfl | rfl | rfl | rfl | rfl | rfl | rfl
    · exact ⟨((595 - tw) / 2, (842 - th) / 2), by simp [trimCorners],
        nearPoint_intro (by rw [abs_le]; constructor <;> linarith)
          (by rw [abs_le]; constructor <;> linarith),
        nearPoint_intro (by rw [abs_le]; constructor <;> linarith)
          (by rw [abs_le]; constructor <;> linarith)⟩
    · exact ⟨((595 - tw) / 2, (842 - th) / 2), by simp [trimCorners],
        nearPoint_intro (by rw [abs_le]; constructor <;> linarith)
          (by rw [abs_le]; constructor <;> linarith),
        nearPoint_intro (by rw [abs_le]; constructor <;> linarith)
          (by rw [abs_le]; constructor <;> linarith)⟩
    · exact ⟨((595 - tw) / 2 + tw, (842 - th) / 2), by simp [trimCorners],
        nearPoint_intro (by rw [abs_le]; constructor <;> linarith)
          (by rw [abs_le]; constructor <;> linarith),
        nearPoint_intro (by rw [abs_le]; constructor <;> linarith)
          (by rw [abs_le]; constructor <;> linarith)⟩
    · exact ⟨((595 - tw) / 2 + tw, (842 - th) / 2), by simp [trimCorners],
        nearPoint_intro (by rw [abs_le]; constructor <;> linarith)
          (by rw [abs_le]; constructor <;> linarith),
        nearPoint_intro (by rw [abs_le]; constructor <;> linarith)
          (by rw [abs_le]; constructor <;> linarith)⟩
    · exact ⟨((595 - tw) / 2, (842 - th) / 2 + th), by simp [trimCorners],
        nearPoint_intro (by rw [abs_le]; constructor <;> linarith)
          (by rw [abs_le]; constructor <;> linarith),
        nearPoint_intro (by rw [abs_le]; constructor <;> linarith)
          (by rw [abs_le]; constructor <;> linarith)⟩
    · exact ⟨((595 - tw) / 2, (842 - th) / 2 + th), by simp [trimCorners],
        nearPoint_intro (by rw [abs_le]; constructor <;> linarith)
          (by rw [abs_le]; constructor <;> linarith),
        nearPoint_intro (by rw [abs_le]; constructor <;> linarith)
          (by rw [abs_le]; constructor <;> linarith)⟩
    · exact ⟨((595 - tw) / 2 + tw, (842 - th) / 2 + th),
        by simp [trimCorners],
        nearPoint_intro (by rw [abs_le]; constructor <;> linarith)
          (by rw [abs_le]; constructor <;> linarith),
        nearPoint_intro (by rw [abs_le]; constructor <;> linarith)
          (by rw [abs_le]; constructor <;> linarith)⟩
    · exact ⟨((595 - tw) / 2 + tw, (842 - th) / 2 + th),
        by simp [trimCorners],
        nearPoint_intro (by rw [abs_le]; constructor <;> linarith)
          (by rw [abs_le]; constructor <;> linarith),
        nearPoint_intro (by rw [abs_le]; constructor <;> linarith)
          (by rw [abs_le]; constructor <;> linarith)⟩

/-- C8 witness at the trade trim size, for the first segment. -/
theorem crop_marks_near_trim_corners_witness :
    (markSegments (generateCropMarks ((595 - 432) / 2) ((842 - 648) / 2)
      432 648)).length = 8 ∧
    ∀ s ∈ markSegments (generateCropMarks ((595 - 432) / 2) ((842 - 648) / 2)
        432 648),
      ∃ c ∈ trimCorners 432 648, nearPoint s.1 c 25 ∧ nearPoint s.2 c 25 :=
  crop_marks_near_trim_corners 432 648

/-- C5: `combine` equals the page loop's result mapped through the
compression pass — so on success the saved document is exactly the
compression of the fully stamped document (compression runs after all pages,
immediately before the save, as the last step), and when stamping any page
fails the error is returned as-is without reaching the save (no output file
is written). -/
theorem combine_error_propagation_and_compress_last
    (flate : List Nat → List Nat) (fontData : List Nat) (face : FontFace)
    (ts : String) (manuscript : Document) (tw th : ℚ) :
    combine flate fontData face ts manuscript tw th =
      (stampPages tw th (embedFont fontData face manuscript).2.1
        (embedFont fontData face manuscript).2.2 ts
        (embedFont fontData face manuscript).1
        (embedFont fontData face manuscript).1.pageIter.enum).map
        (Document.compress flate) ∧
    ∀ e, stampPages tw th (embedFont fontData face manuscript).2.1
        (embedFont fontData face manuscript).2.2 ts
        (embedFont fontData face manuscript).1
        (embedFont fontData face manuscript).1.pageIter.enum = .error e →
      combine flate fontData face ts manuscript tw th = .error e := by
  rcases he : embedFont fontData face manuscript with ⟨d0, fid0, cw0⟩
  constructor
  · simp only [combine, he]
    cases h : stampPages tw th fid0 cw0 ts d0 d0.pageIter.enum with
    | ok d => simp [h, Except.map, bind, Except.bind]
    | error e => simp [h, Except.map, bind, Except.bind]
  · intro e hsp
    simp only at hsp
    simp [combine, he, hsp, bind, Except.bind]

/-- C5 witness: a manuscript whose page lacks MediaBox makes the page loop
fail, and `combine` returns that error (no document is handed to save). -/
theorem combine_error_propagation_witness :
    combine (fun b => b) [] sampleFace "ts" noMediaBoxDoc 432 648 =
      .error .dictKey :=
  (combine_error_propagation_and_compress_last (fun b => b) [] sampleFace
    "ts" noMediaBoxDoc 432 648).2 .dictKey (by rfl)

/-! ## Pipeline-stage lemmas for the combine-level claims -/

theorem embedFont_maxId (fontData : List Nat) (face : FontFace)
    (doc : Document) : (embedFont fontData face doc).1.maxId = doc.maxId + 3 := by
  simp only [embedFont, Document.addObject]

theorem embedFont_trailerRoot (fontData : List Nat) (face : FontFace)
    (doc : Document) :
    (embedFont fontData face doc).1.trailerRoot = doc.trailerRoot := by
  simp only [embedFont, Document.addObject]

theorem embedFont_lookup_le (fontData : List Nat) (face : FontFace)
    (doc : Document) (id : ObjectId) (hle : id.1 ≤ doc.maxId) :
    (embedFont fontData face doc).1.lookup id = doc.lookup id := by
  simp only [embedFont, Document.addObject, Document.lookup]
  rw [getObj_setObj_ne _ _ _ _ (by intro h; rw [h] at hle; simp at hle; all_goals omega)]
  rw [getObj_setObj_ne _ _ _ _ (by intro h; rw [h] at hle; simp at hle; all_goals omega)]
  rw [getObj_setObj_ne _ _ _ _ (by intro h; rw [h] at hle; simp at hle; all_goals omega)]

theorem compress_lookup (flate : List Nat → List Nat) (doc : Document)
    (id : ObjectId) :
    (Document.compress flate doc).lookup id =
      match doc.lookup id with
      | some (.stream d (.raw b)) => some (.stream d (.raw (flate b)))
      | x => x := by
  unfold Document.compress Document.lookup
  simp only
  induction doc.objects with
  | nil => simp [getObj]
  | cons e rest ih =>
    obtain ⟨eid, ev⟩ := e
    by_cases he : eid = id
    · subst he
      cases ev with
      | stream d sd =>
        cases sd with
        | raw b => simp [getObj]
        | encoded ops => simp [getObj]
      | null => simp [getObj]
      | boolean b => simp [getObj]
      | integer i => simp [getObj]
      | real r => simp [getObj]
      | string s => simp [getObj]
      | name nm => simp [getObj]
      | array xs => simp [getObj]
      | dictionary d => simp [getObj]
      | reference r => simp [getObj]
    · have hfst : ∀ (o : Object),
        ((match (eid, o).2 with
          | Object.stream d (StreamData.raw b) =>
            ((eid, o).1, Object.stream d (.raw (flate b)))
          | _ => (eid, o)) : ObjectId × Object).1 = eid := by
        intro o
        cases o with
        | stream d sd => cases sd <;> rfl
        | null => rfl
        | boolean b => rfl
        | integer i => rfl
        | real r => rfl
        | string s => rfl
        | name nm => rfl
        | array xs => rfl
        | dictionary d => rfl
        | reference r => rfl
      rw [List.map_cons, getObj, getObj]
      rw [hfst ev]
      simp only [he, if_false]
      exact ih

theorem compress_maxId (flate : List Nat → List Nat) (doc : Document) :
    (Document.compress flate doc).maxId = doc.maxId := rfl

theorem compress_trailerRoot (flate : List Nat → List Nat) (doc : Document) :
    (Document.compress flate doc).trailerRoot = doc.trailerRoot := rfl

theorem viewPreserved_refl (a : Option Object) : viewPreserved a a :=
  Or.inl rfl

theorem viewPreserved_trans {a b c : Option Object} (h1 : viewPreserved a b)
    (h2 : viewPreserved b c) : viewPreserved a c := by
  rcases h1 with rfl | ⟨d, d', ha, hb, hk⟩ | ⟨sd, sc, sd', sc', ha, hb⟩
  · exact h2
  · rcases h2 with rfl | ⟨e, e', hb', hc, hk'⟩ | ⟨td, tc, td', tc', hb', hc⟩
    · exact Or.inr (Or.inl ⟨d, d', ha, hb, hk⟩)
    · refine Or.inr (Or.inl ⟨d, e', ha, hc, ?_⟩)
      intro k k1 k2 k3
      have hde : e = d' := by
        rw [hb] at hb'
        simpa using hb'.symm
      rw [hk' k k1 k2 k3, hde, hk k k1 k2 k3]
    · rw [hb] at hb'
      simp at hb'
  · rcases h2 with rfl | ⟨e, e', hb', hc, hk'⟩ | ⟨td, tc, td', tc', hb', hc⟩
    · exact Or.inr (Or.inr ⟨sd, sc, sd', sc', ha, hb⟩)
    · rw [hb] at hb'
      simp at hb'
    · exact Or.inr (Or.inr ⟨sd, sc, td', tc', ha, hc⟩)

theorem compress_viewPreserved (flate : List Nat → List Nat) (doc : Document)
    (id : ObjectId) :
    viewPreserved (doc.lookup id) ((Document.compress flate doc).lookup id) := by
  rw [compress_lookup]
  cases hl : doc.lookup id with
  | none => exact Or.inl rfl
  | some obj =>
    cases obj with
    | stream d sd =>
      cases sd with
      | raw b => exact Or.inr (Or.inr ⟨d, .raw b, d, .raw (flate b), rfl, rfl⟩)
      | encoded ops => exact Or.inl rfl
    | null => exact Or.inl rfl
    | boolean b => exact Or.inl rfl
    | integer i => exact Or.inl rfl
    | real r => exact Or.inl rfl
    | string s => exact Or.inl rfl
    | name nm => exact Or.inl rfl
    | array xs => exact Or.inl rfl
    | dictionary d => exact Or.inl rfl
    | reference r => exact Or.inl rfl

theorem stampPage_ok_inv (doc : Document) (pageId : ObjectId) (tw th : ℚ)
    (fid : ObjectId) (cw : ℚ) (ts : String) (n : Nat) (doc' : Document)
    (h : stampPage doc pageId tw th fid cw ts n = .ok doc') :
    ∃ page aw ah, doc.lookup pageId = some (.dictionary page) ∧
      doc' = stampPageCore doc pageId page aw ah tw th fid cw ts n := by
  unfold stampPage Document.getObject at h
  cases hg : doc.lookup pageId with
  | none => rw [hg] at h; simp [bind, Except.bind] at h
  | some obj =>
    rw [hg] at h
    cases obj with
    | dictionary page =>
      simp only [bind, Except.bind, asDict] at h
      cases hmb : dictGet page "MediaBox" with
      | none => rw [dictGetE, hmb] at h; simp at h
      | some mb =>
        rw [dictGetE, hmb] at h
        simp only at h
        split at h
        · rename_i m0 m1 m2 m3
          cases h0 : objToRat m0 with
          | error e => rw [h0] at h; simp [bind, Except.bind] at h
          | ok x1 =>
            rw [h0] at h
            simp only [bind, Except.bind] at h
            cases h1 : objToRat m1 with
            | error e => rw [h1] at h; simp at h
            | ok y1 =>
              rw [h1] at h
              simp only at h
              cases h2 : objToRat m2 with
              | error e => rw [h2] at h; simp at h
              | ok x2 =>
                rw [h2] at h
                simp only at h
                cases h3 : objToRat m3 with
                | error e => rw [h3] at h; simp at h
                | ok y2 =>
                  rw [h3] at h
                  simp only [Except.ok.injEq] at h
                  exact ⟨page, x2 - x1, y2 - y1, rfl, h.symm⟩
        · simp at h
    | null => simp [bind, Except.bind, asDict] at h
    | boolean b => simp [bind, Except.bind, asDict] at h
    | integer i => simp [bind, Except.bind, asDict] at h
    | real r => simp [bind, Except.bind, asDict] at h
    | string s => simp [bind, Except.bind, asDict] at h
    | name nm => simp [bind, Except.bind, asDict] at h
    | array xs => simp [bind, Except.bind, asDict] at h
    | reference r => simp [bind, Except.bind, asDict] at h
    | stream d sd => simp [bind, Except.bind, asDict] at h

theorem stampPage_ok_facts (doc : Document) (pageId : ObjectId) (tw th : ℚ)
    (fid : ObjectId) (cw : ℚ) (ts : String) (n : Nat) (doc' : Document)
    (h : stampPage doc pageId tw th fid cw ts n = .ok doc') :
    doc'.maxId = doc.maxId + 5 ∧ doc'.trailerRoot = doc.trailerRoot ∧
    (∀ id, id.1 ≤ doc.maxId →
      viewPreserved (doc.lookup id) (doc'.lookup id)) ∧
    (∀ id, id ≠ pageId → id.1 ≤ doc.maxId →
      doc'.lookup id = doc.lookup id) := by
  obtain ⟨page, aw, ah, hpg, rfl⟩ :=
    stampPage_ok_inv doc pageId tw th fid cw ts n doc' h
  refine ⟨stampPageCore_maxId doc pageId page aw ah tw th fid cw ts n,
    stampPageCore_trailerRoot doc pageId page aw ah tw th fid cw ts n, ?_,
    fun id hne hle =>
      stampPageCore_frame doc pageId page aw ah tw th fid cw ts n id hne hle⟩
  intro id hle
  by_cases hid : id = pageId
  · subst hid
    obtain ⟨res, hpage, hres⟩ :=
      stampPageCore_page doc id page aw ah tw th fid cw ts n
    refine Or.inr (Or.inl ⟨page, _, hpg, hpage, ?_⟩)
    intro k k1 k2 k3
    rw [dictGet_dictSet_ne _ _ _ _ k2, dictGet_dictSet_ne _ _ _ _ k3,
      dictGet_dictSet_ne _ _ _ _ k1]
  · exact Or.inl
      (stampPageCore_frame doc pageId page aw ah tw th fid cw ts n id hid
        hle).symm

theorem isPageNode_congr (doc doc' : Document) (r : ObjectId)
    (h : viewPreserved (doc.lookup r) (doc'.lookup r)) :
    isPageNode doc' r = isPageNode doc r := by
  unfold isPageNode
  rcases h with heq | ⟨d, d', ha, hb, hk⟩ | ⟨sd, c, sd', c', ha, hb⟩
  · rw [← heq]
  · rw [ha, hb]
    simp only [hk "Type" (by decide) (by decide) (by decide)]
  · rw [ha, hb]

theorem catalogPagesRef_congr (doc doc' : Document)
    (hroot : doc'.trailerRoot = doc.trailerRoot)
    (h : viewPreserved (doc.lookup doc.trailerRoot)
      (doc'.lookup doc.trailerRoot)) :
    catalogPagesRef doc' = catalogPagesRef doc := by
  unfold catalogPagesRef
  rw [hroot]
  rcases h with heq | ⟨d, d', ha, hb, hk⟩ | ⟨sd, c, sd', c', ha, hb⟩
  · rw [← heq]
  · rw [ha, hb]
    simp only [hk "Pages" (by decide) (by decide) (by decide)]
  · rw [ha, hb]

theorem pagesKids_congr (doc doc' : Document) (pagesId : ObjectId)
    (h : viewPreserved (doc.lookup pagesId) (doc'.lookup pagesId)) :
    pagesKids doc' pagesId = pagesKids doc pagesId := by
  unfold pagesKids
  rcases h with heq | ⟨d, d', ha, hb, hk⟩ | ⟨sd, c, sd', c', ha, hb⟩
  · rw [← heq]
  · rw [ha, hb]
    simp only [hk "Kids" (by decide) (by decide) (by decide)]
  · rw [ha, hb]

theorem pageIter_eq_of_viewPreserved (doc doc' : Document)
    (hroot : doc'.trailerRoot = doc.trailerRoot)
    (hb : doc.pageTreeBounded = true)
    (hvp : ∀ id, id.1 ≤ doc.maxId →
      viewPreserved (doc.lookup id) (doc'.lookup id)) :
    doc'.pageIter = doc.pageIter := by
  unfold Document.pageTreeBounded at hb
  rw [Bool.and_eq_true] at hb
  obtain ⟨hb1, hb2⟩ := hb
  have hrle : doc.trailerRoot.1 ≤ doc.maxId := of_decide_eq_true hb1
  unfold Document.pageIter
  rw [catalogPagesRef_congr doc doc' hroot (hvp doc.trailerRoot hrle)]
  cases hc : catalogPagesRef doc with
  | none => rfl
  | some pagesId =>
    rw [hc] at hb2
    simp only [Bool.and_eq_true] at hb2
    obtain ⟨hb3, hb4⟩ := hb2
    have hple : pagesId.1 ≤ doc.maxId := of_decide_eq_true hb3
    simp only
    rw [pagesKids_congr doc doc' pagesId (hvp pagesId hple)]
    apply List.filter_congr
    intro r hr
    obtain ⟨o, ho, heq⟩ := List.mem_filterMap.mp hr
    have hob := List.all_eq_true.mp hb4 o ho
    have hrle' : r.1 ≤ doc.maxId := by
      cases o with
      | reference rr =>
        simp only [Option.some.injEq] at heq
        subst heq
        exact of_decide_eq_true hob
      | null => simp at heq
      | boolean b => simp at heq
      | integer i => simp at heq
      | real q => simp at heq
      | string s => simp at heq
      | name nm => simp at heq
      | array xs => simp at heq
      | dictionary d => simp at heq
      | stream d sd => simp at heq
    exact isPageNode_congr doc doc' r (hvp r hrle')

theorem pageIter_bounded (doc : Document) (hb : doc.pageTreeBounded = true) :
    ∀ r ∈ doc.pageIter, r.1 ≤ doc.maxId := by
  intro r hr
  unfold Document.pageIter at hr
  unfold Document.pageTreeBounded at hb
  rw [Bool.and_eq_true] at hb
  obtain ⟨hb1, hb2⟩ := hb
  cases hc : catalogPagesRef doc with
  | none => rw [hc] at hr; simp at hr
  | some pagesId =>
    rw [hc] at hr hb2
    simp only [Bool.and_eq_true] at hb2
    obtain ⟨hb3, hb4⟩ := hb2
    have hr' := List.mem_of_mem_filter hr
    obtain ⟨o, ho, heq⟩ := List.mem_filterMap.mp hr'
    have hob := List.all_eq_true.mp hb4 o ho
    cases o with
    | reference rr =>
      simp only [Option.some.injEq] at heq
      subst heq
      exact of_decide_eq_true hob
    | null => simp at heq
    | boolean b => simp at heq
    | integer i => simp at heq
    | real q => simp at heq
    | string s => simp at heq
    | name nm => simp at heq
    | array xs => simp at heq
    | dictionary d => simp at heq
    | stream d sd => simp at heq

theorem stampPages_ok_facts (tw th : ℚ) (fid : ObjectId) (cw : ℚ)
    (ts : String) :
    ∀ (ps : List (Nat × ObjectId)) (doc doc' : Document),
      stampPages tw th fid cw ts doc ps = .ok doc' →
      doc.maxId ≤ doc'.maxId ∧ doc'.trailerRoot = doc.trailerRoot ∧
      ∀ id, id.1 ≤ doc.maxId →
        viewPreserved (doc.lookup id) (doc'.lookup id) := by
  intro ps
  induction ps with
  | nil =>
    intro doc doc' h
    simp only [stampPages, Except.ok.injEq] at h
    subst h
    exact ⟨le_refl _, rfl, fun id _ => viewPreserved_refl _⟩
  | cons e rest ih =>
    intro doc doc' h
    obtain ⟨idx, pid⟩ := e
    simp only [stampPages] at h
    cases hs : stampPage doc pid tw th fid cw ts (idx + 1) with
    | error e2 => rw [hs] at h; simp [bind, Except.bind] at h
    | ok doc1 =>
      rw [hs] at h
      simp only [bind, Except.bind] at h
      obtain ⟨h1max, h1root, h1vp, _⟩ :=
        stampPage_ok_facts doc pid tw th fid cw ts (idx + 1) doc1 hs
      obtain ⟨h2max, h2root, h2vp⟩ := ih doc1 doc' h
      refine ⟨by omega, by rw [h2root, h1root], ?_⟩
      intro id hle
      exact viewPreserved_trans (h1vp id hle) (h2vp id (by omega))

theorem stampPages_frame (tw th : ℚ) (fid : ObjectId) (cw : ℚ)
    (ts : String) :
    ∀ (ps : List (Nat × ObjectId)) (doc doc' : Document),
      stampPages tw th fid cw ts doc ps = .ok doc' →
      ∀ id, id.1 ≤ doc.maxId → (∀ e ∈ ps, id ≠ e.2) →
        doc'.lookup id = doc.lookup id := by
  intro ps
  induction ps with
  | nil =>
    intro doc doc' h id _ _
    simp only [stampPages, Except.ok.injEq] at h
    subst h
    rfl
  | cons e rest ih =>
    intro doc doc' h id hle hne
    obtain ⟨idx, pid⟩ := e
    simp only [stampPages] at h
    cases hs : stampPage doc pid tw th fid cw ts (idx + 1) with
    | error e2 => rw [hs] at h; simp [bind, Except.bind] at h
    | ok doc1 =>
      rw [hs] at h
      simp only [bind, Except.bind] at h
      obtain ⟨h1max, _, _, h1frame⟩ :=
        stampPage_ok_facts doc pid tw th fid cw ts (idx + 1) doc1 hs
      rw [ih doc1 doc' h id (by omega)
        (fun e2 he2 => hne e2 (List.mem_cons_of_mem _ he2))]
      exact h1frame id (hne (idx, pid) (List.mem_cons_self _ _)) hle

/-- C7: the output document's page order is exactly the manuscript's page
order (the loop itself visits the page ids strictly in that order by
construction), and an empty manuscript yields a successful (empty) output
document rather than a fatal error. -/
theorem combine_preserves_page_order (flate : List Nat → List Nat)
    (fontData : List Nat) (face : FontFace) (ts : String)
    (manuscript : Document) (tw th : ℚ)
    (htree : manuscript.pageTreeBounded = true) :
    (∀ out, combine flate fontData face ts manuscript tw th = .ok out →
      out.pageIter = manuscript.pageIter) ∧
    (manuscript.pageIter = [] →
      ∃ out, combine flate fontData face ts manuscript tw th = .ok out) := by
  have hevp : ∀ id, id.1 ≤ manuscript.maxId →
      viewPreserved (manuscript.lookup id)
        ((embedFont fontData face manuscript).1.lookup id) := by
    intro id hle
    exact Or.inl (embedFont_lookup_le fontData face manuscript id hle).symm
  have heroot := embedFont_trailerRoot fontData face manuscript
  have hemax := embedFont_maxId fontData face manuscript
  have hepi : (embedFont fontData face manuscript).1.pageIter =
      manuscript.pageIter :=
    pageIter_eq_of_viewPreserved manuscript _ heroot htree hevp
  have hcomb := (combine_error_propagation_and_compress_last flate fontData
    face ts manuscript tw th).1
  constructor
  · intro out hok
    rw [hcomb] at hok
    cases hsp : stampPages tw th (embedFont fontData face manuscript).2.1
        (embedFont fontData face manuscript).2.2 ts
        (embedFont fontData face manuscript).1
        (embedFont fontData face manuscript).1.pageIter.enum with
    | error e => rw [hsp] at hok; simp [Except.map] at hok
    | ok stamped =>
      rw [hsp] at hok
      simp only [Except.map, Except.ok.injEq] at hok
      subst hok
      obtain ⟨hsmax, hsroot, hsvp⟩ :=
        stampPages_ok_facts tw th _ _ ts _ _ stamped hsp
      apply pageIter_eq_of_viewPreserved manuscript _ _ htree
      · intro id hle
        refine viewPreserved_trans (hevp id hle) ?_
        refine viewPreserved_trans (hsvp id (by omega)) ?_
        exact compress_viewPreserved flate stamped id
      · rw [compress_trailerRoot, hsroot, heroot]
  · intro hempty
    refine ⟨Document.compress flate (embedFont fontData face manuscript).1, ?_⟩
    rw [hcomb, hepi, hempty]
    simp [stampPages, Except.map]

/-- C7 witness: on the concrete one-page manuscript, combine succeeds and
the output's page order equals the input's. -/
theorem combine_preserves_page_order_witness :
    ∃ out, combine (fun b => b) [] sampleFace "ts" sampleDoc 432 648 =
      .ok out ∧ out.pageIter = sampleDoc.pageIter := by
  obtain ⟨out, hok⟩ : ∃ d,
      combine (fun b => b) [] sampleFace "ts" sampleDoc 432 648 = .ok d := by
    cases hc : combine (fun b => b) [] sampleFace "ts" sampleDoc 432 648 with
    | ok d => exact ⟨d, rfl⟩
    | error e =>
      have : isOkE (combine (fun b => b) [] sampleFace "ts" sampleDoc
          432 648) = true := by rfl
      rw [hc] at this
      simp [isOkE] at this
  exact ⟨out, hok,
    (combine_preserves_page_order (fun b => b) [] sampleFace "ts" sampleDoc
      432 648 (by rfl)).1 out hok⟩

theorem resolvedOverlay_of_parts (doc : Document) (pid xid oid : ObjectId)
    (d' res xd0 : Dict)
    (hpg : doc.lookup pid = some (.dictionary d'))
    (hres : dictGet d' "Resources" = some (.dictionary res))
    (hxo : dictGet res "XObject" = some (.reference xid))
    (hxd : doc.lookup xid = some (.dictionary xd0))
    (hov : dictGet xd0 "Overlay" = some (.reference oid)) :
    resolvedOverlay doc pid = some oid := by
  simp only [resolvedOverlay, xobjectBinding, hpg, hres, hxo, hxd, hov]

theorem stampPages_overlay (tw th : ℚ) (fid : ObjectId) (cw : ℚ)
    (ts : String) :
    ∀ (ps : List (Nat × ObjectId)) (doc doc' : Document),
      stampPages tw th fid cw ts doc ps = .ok doc' →
      (∀ e ∈ ps, e.2.1 ≤ doc.maxId) →
      (ps.map Prod.snd).Nodup →
      ∀ idx pid, (idx, pid) ∈ ps →
        ∃ d' res xid xd0 oid xdict,
          doc'.lookup pid = some (.dictionary d') ∧
          dictGet d' "Resources" = some (.dictionary res) ∧
          dictGet res "XObject" = some (.reference xid) ∧
          doc'.lookup xid = some (.dictionary xd0) ∧
          dictGet xd0 "Overlay" = some (.reference oid) ∧
          doc'.lookup oid = some (.stream xdict (.encoded
            (overlayOps (idx + 1) ((595 - tw) / 2) ((842 - th) / 2) tw th cw
              ts))) := by
  intro ps
  induction ps with
  | nil => intro doc doc' h hb hnd idx pid hm; simp at hm
  | cons e rest ih =>
    intro doc doc' h hb hnd idx pid hm
    obtain ⟨j, q⟩ := e
    simp only [stampPages] at h
    cases hs : stampPage doc q tw th fid cw ts (j + 1) with
    | error e2 => rw [hs] at h; simp [bind, Except.bind] at h
    | ok doc1 =>
      rw [hs] at h
      simp only [bind, Except.bind] at h
      simp only [List.map_cons, List.nodup_cons] at hnd
      obtain ⟨hqnot, hndrest⟩ := hnd
      rcases List.mem_cons.mp hm with hhead | htail
      · rw [Prod.mk.injEq] at hhead
        obtain ⟨rfl, rfl⟩ := hhead
        obtain ⟨page, aw, ah, hpg, hcore⟩ :=
          stampPage_ok_inv doc pid tw th fid cw ts (idx + 1) doc1 hs
        subst hcore
        have hqle : pid.1 ≤ doc.maxId := hb (idx, pid) (List.mem_cons_self _ _)
        obtain ⟨res, hpage, hres⟩ :=
          stampPageCore_page doc pid page aw ah tw th fid cw ts (idx + 1)
        obtain ⟨xd0, hxd⟩ :=
          stampPageCore_xobjectDict doc pid page aw ah tw th fid cw ts
            (idx + 1) hqle
        have hstr := stampPageCore_overlayStream doc pid page aw ah tw th fid
          cw ts (idx + 1) hqle
        have hmax := stampPageCore_maxId doc pid page aw ah tw th fid cw ts
          (idx + 1)
        have hfr := stampPages_frame tw th fid cw ts rest _ doc' h
        have hnq : ∀ e2 ∈ rest, pid ≠ e2.2 := by
          intro e2 he2 heq
          exact hqnot (heq ▸ List.mem_map_of_mem Prod.snd he2)
        have hn2 : ∀ e2 ∈ rest, (doc.maxId + 2, (0 : Nat)) ≠ e2.2 := by
          intro e2 he2 heq
          have hb2 := hb e2 (List.mem_cons_of_mem _ he2)
          rw [← heq] at hb2
          simp at hb2
        have hn3 : ∀ e2 ∈ rest, (doc.maxId + 3, (0 : Nat)) ≠ e2.2 := by
          intro e2 he2 heq
          have hb2 := hb e2 (List.mem_cons_of_mem _ he2)
          rw [← heq] at hb2
          simp at hb2
        have hlq : doc'.lookup pid =
            (stampPageCore doc pid page aw ah tw th fid cw ts
              (idx + 1)).lookup pid :=
          hfr pid (by rw [hmax]; omega) hnq
        have hl3 : doc'.lookup (doc.maxId + 3, 0) =
            (stampPageCore doc pid page aw ah tw th fid cw ts
              (idx + 1)).lookup (doc.maxId + 3, 0) :=
          hfr (doc.maxId + 3, 0) (by rw [hmax]; simp) hn3
        have hl2 : doc'.lookup (doc.maxId + 2, 0) =
            (stampPageCore doc pid page aw ah tw th fid cw ts
              (idx + 1)).lookup (doc.maxId + 2, 0) :=
          hfr (doc.maxId + 2, 0) (by rw [hmax]; simp) hn2
        refine ⟨_, res, (doc.maxId + 3, 0), _, (doc.maxId + 2, 0), _,
          by rw [hlq]; exact hpage, ?_, hres,
          by rw [hl3]; exact hxd, dictGet_dictSet_self _ _ _,
          by rw [hl2]; exact hstr⟩
        rw [dictGet_dictSet_ne _ _ _ _ (by decide), dictGet_dictSet_self]
      · obtain ⟨h1max, _, _, _⟩ :=
          stampPage_ok_facts doc q tw th fid cw ts (j + 1) doc1 hs
        refine ih doc1 doc' h ?_ hndrest idx pid htail
        intro e2 he2
        have := hb e2 (List.mem_cons_of_mem _ he2)
        omega

/-- C9: page numbering is 1-based and follows page order: for the page at
0-based index `i` of the manuscript's page sequence, the overlay Form XObject
invoked from that page's stamped resources ends with a text block showing the
decimal representation of `i + 1` at y = 28.35 (= 567/20) and
x = 595 − 28.35 − digits × char_width × 10 (10 being the font size),
right-aligning the number 1 cm from the bottom-right of the A4 canvas. -/
theorem combine_page_numbering (flate : List Nat → List Nat)
    (fontData : List Nat) (face : FontFace) (ts : String)
    (manuscript : Document) (tw th : ℚ) (i : Nat) (pid : ObjectId)
    (out : Document)
    (htree : manuscript.pageTreeBounded = true)
    (hnd : manuscript.pageIter.Nodup)
    (hi : manuscript.pageIter.get? i = some pid)
    (hok : combine flate fontData face ts manuscript tw th = .ok out) :
    ∃ oid xdict front,
      resolvedOverlay out pid = some oid ∧
      out.lookup oid = some (.stream xdict (.encoded (front ++
        [("BT", ([] : List Object)),
         ("Tf", [.name "F1", .integer 10]),
         ("Td", [.real (595 - 567/20 - ((Nat.repr (i + 1)).length : ℚ) *
            (embedFont fontData face manuscript).2.2 * 10),
           .real (567/20)]),
         ("Tj", [.string (Nat.repr (i + 1))]),
         ("ET", [])]))) := by
  have hevp : ∀ id, id.1 ≤ manuscript.maxId →
      viewPreserved (manuscript.lookup id)
        ((embedFont fontData face manuscript).1.lookup id) := by
    intro id hle
    exact Or.inl (embedFont_lookup_le fontData face manuscript id hle).symm
  have heroot := embedFont_trailerRoot fontData face manuscript
  have hemax := embedFont_maxId fontData face manuscript
  have hepi : (embedFont fontData face manuscript).1.pageIter =
      manuscript.pageIter :=
    pageIter_eq_of_viewPreserved manuscript _ heroot htree hevp
  rw [(combine_error_propagation_and_compress_last flate fontData face ts
    manuscript tw th).1] at hok
  cases hsp : stampPages tw th (embedFont fontData face manuscript).2.1
      (embedFont fontData face manuscript).2.2 ts
      (embedFont fontData face manuscript).1
      (embedFont fontData face manuscript).1.pageIter.enum with
  | error e => rw [hsp] at hok; simp [Except.map] at hok
  | ok stamped =>
    rw [hsp] at hok
    simp only [Except.map, Except.ok.injEq] at hok
    subst hok
    have hmem : (i, pid) ∈
        (embedFont fontData face manuscript).1.pageIter.enum := by
      rw [hepi]
      exact List.mk_mem_enum_iff_get?.mpr hi
    have hbounds : ∀ e ∈ (embedFont fontData face manuscript).1.pageIter.enum,
        e.2.1 ≤ (embedFont fontData face manuscript).1.maxId := by
      intro e he
      have hsnd : e.2 ∈
          (embedFont fontData face manuscript).1.pageIter.enum.map Prod.snd :=
        List.mem_map_of_mem Prod.snd he
      rw [List.enum_map_snd, hepi] at hsnd
      have := pageIter_bounded manuscript htree e.2 hsnd
      omega
    have hndup : ((embedFont fontData face
        manuscript).1.pageIter.enum.map Prod.snd).Nodup := by
      rw [List.enum_map_snd, hepi]
      exact hnd
    obtain ⟨d', res, xid, xd0, oid, xdict, hp1, hp2, hp3, hp4, hp5, hp6⟩ :=
      stampPages_overlay tw th _ _ ts _ _ stamped hsp hbounds hndup i pid hmem
    have ho1 : (Document.compress flate stamped).lookup pid =
        some (.dictionary d') := by
      rw [compress_lookup, hp1]
    have ho4 : (Document.compress flate stamped).lookup xid =
        some (.dictionary xd0) := by
      rw [compress_lookup, hp4]
    have ho6 : (Document.compress flate stamped).lookup oid =
        some (.stream xdict (.encoded
          (overlayOps (i + 1) ((595 - tw) / 2) ((842 - th) / 2) tw th
            (embedFont fontData face manuscript).2.2 ts))) := by
      rw [compress_lookup, hp6]
    refine ⟨oid, xdict,
      generateCropMarks ((595 - tw) / 2) ((842 - th) / 2) tw th ++
        generateDatetime ts "F1",
      resolvedOverlay_of_parts _ pid xid oid d' res xd0 ho1 hp2 hp3 ho4 hp5,
      ?_⟩
    rw [ho6]
    simp [overlayOps, generatePageNumber, List.append_assoc]

/-- C9 witness: on the concrete one-page manuscript the page at index 0 gets
page number 1 in its overlay. -/
theorem combine_page_numbering_witness :
    ∃ out, combine (fun b => b) [] sampleFace "ts" sampleDoc 432 648 =
      .ok out ∧
      ∃ oid xdict front,
        resolvedOverlay out (3, 0) = some oid ∧
        out.lookup oid = some (.stream xdict (.encoded (front ++
          [("BT", ([] : List Object)),
           ("Tf", [.name "F1", .integer 10]),
           ("Td", [.real (595 - 567/20 - ((Nat.repr (0 + 1)).length : ℚ) *
              (embedFont [] sampleFace sampleDoc).2.2 * 10),
             .real (567/20)]),
           ("Tj", [.string (Nat.repr (0 + 1))]),
           ("ET", [])]))) := by
  obtain ⟨out, hok⟩ : ∃ d,
      combine (fun b => b) [] sampleFace "ts" sampleDoc 432 648 = .ok d := by
    cases hc : combine (fun b => b) [] sampleFace "ts" sampleDoc 432 648 with
    | ok d => exact ⟨d, rfl⟩
    | error e =>
      have : isOkE (combine (fun b => b) [] sampleFace "ts" sampleDoc
          432 648) = true := by rfl
      rw [hc] at this
      simp [isOkE] at this
  exact ⟨out, hok,
    combine_page_numbering (fun b => b) [] sampleFace "ts" sampleDoc 432 648
      0 (3, 0) out (by rfl) (by decide) (by rfl) hok⟩

end Cropped
